import Mathlib

/-!
# rawaccel driver: shallow embedding of `driver/driver.cpp`

The development embeds the three entry points of the filter driver

* `RawaccelCallback`            (the per-batch motion transform),
* `RawaccelControl`             (the configuration read/write channel),
* `EvtIoInternalDeviceControl`  (the connect/disconnect handler),

as pure state-passing functions, and proves properties of them.

Conventions of the embedding

* `double` is the type `F64`: not-a-number, the two infinities, and the finite
  values, which are carried as rationals.  Comparisons follow IEEE-754 (every
  ordered comparison with not-a-number is false).  Every sum, difference,
  product and integer conversion is rounded to the binary64 format (53
  significant bits, round to nearest, ties to even, gradual underflow,
  overflow to infinity) by `round64`.  The sign of zero is not modelled.
* `LONG` is the subtype of the integers between `LONG_MIN` and `LONG_MAX`.
* pointers are natural numbers, `NULL` is `0`.
* what the driver framework or the hardware answers (buffer retrieval status,
  performance counter reading) is an input of the embedded function.
-/

namespace Rawaccel

/-! ## Numbers -/

/-- The type `double`: not-a-number, plus and minus infinity, finite values. -/
inductive F64 where
  | nan : F64
  | pinf : F64
  | ninf : F64
  | fin (q : ℚ) : F64
  deriving DecidableEq

/-- Number of binary digits of `n`, by recursion on `fuel` (enough when
`n ≤ fuel`). -/
def bits : Nat → Nat → Nat
  | 0, _ => 0
  | fuel + 1, n => if n = 0 then 0 else bits fuel (n / 2) + 1

/-- The binary exponent of a rational other than zero: the integer `k` with
`2^k ≤ |q| < 2^(k+1)`, found from the lengths of numerator and denominator. -/
def ilog2 (q : ℚ) : ℤ :=
  let k : ℤ := (bits q.num.natAbs q.num.natAbs : ℤ) - (bits q.den q.den : ℤ)
  if (2 : ℚ) ^ k ≤ |q| then k else k - 1

/-- Rounding of a rational to the nearest integer, ties to the even one. -/
def round_half_even (x : ℚ) : ℤ :=
  if x - ⌊x⌋ < 1 / 2 then ⌊x⌋
  else if 1 / 2 < x - ⌊x⌋ then ⌊x⌋ + 1
  else if ⌊x⌋ % 2 = 0 then ⌊x⌋ else ⌊x⌋ + 1

/-- Rounding of an exact result to the binary64 format: the significand is
rounded to 53 bits (to a multiple of `2^-1074` in the subnormal range), to
nearest with ties to even; a rounded magnitude of `2^1024` or more is an
infinity. -/
def round64 (q : ℚ) : F64 :=
  let e : ℤ := max (ilog2 q - 52) (-1074)
  let v : ℚ := (round_half_even (q / (2 : ℚ) ^ e) : ℚ) * (2 : ℚ) ^ e
  if (2 : ℚ) ^ 1024 ≤ |v| then (if 0 < q then F64.pinf else F64.ninf) else F64.fin v

/-- The rational is a value of the binary64 format: an integer significand
below `2^53` in magnitude times a power of two not below `2^-1074`, the whole
below `2^1024` in magnitude. -/
def IsDouble (v : ℚ) : Prop :=
  ∃ m e : ℤ, |m| < 2 ^ 53 ∧ -1074 ≤ e ∧ v = (m : ℚ) * (2 : ℚ) ^ e ∧ |v| < (2 : ℚ) ^ 1024

namespace F64

/-- The test `x != x` of a double. -/
def isnan : F64 → Bool
  | nan => true
  | _ => false

/-- The C++ comparison `a <= b` on doubles. -/
def le : F64 → F64 → Bool
  | nan, _ => false
  | _, nan => false
  | ninf, _ => true
  | _, pinf => true
  | pinf, _ => false
  | _, ninf => false
  | fin a, fin b => decide (a ≤ b)

/-- The C++ comparison `a < b` on doubles. -/
def lt : F64 → F64 → Bool
  | nan, _ => false
  | _, nan => false
  | pinf, _ => false
  | _, ninf => false
  | ninf, _ => true
  | _, pinf => true
  | fin a, fin b => decide (a < b)

/-- Unary minus. -/
def neg : F64 → F64
  | nan => nan
  | pinf => ninf
  | ninf => pinf
  | fin a => fin (-a)

/-- The C++ sum `a + b` on doubles. -/
def add : F64 → F64 → F64
  | nan, _ => nan
  | _, nan => nan
  | pinf, ninf => nan
  | ninf, pinf => nan
  | pinf, _ => pinf
  | _, pinf => pinf
  | ninf, _ => ninf
  | _, ninf => ninf
  | fin a, fin b => round64 (a + b)

/-- The C++ difference `a - b` on doubles. -/
def sub (a b : F64) : F64 := add a (neg b)

/-- Sign of an infinite product: `true` is plus infinity. -/
def signedInf (positive : Bool) : F64 := if positive then pinf else ninf

/-- The C++ product `a * b` on doubles. -/
def mul : F64 → F64 → F64
  | nan, _ => nan
  | _, nan => nan
  | pinf, pinf => pinf
  | pinf, ninf => ninf
  | ninf, pinf => ninf
  | ninf, ninf => pinf
  | pinf, fin b => if b = 0 then nan else signedInf (decide (0 < b))
  | ninf, fin b => if b = 0 then nan else signedInf (decide (b < 0))
  | fin a, pinf => if a = 0 then nan else signedInf (decide (0 < a))
  | fin a, ninf => if a = 0 then nan else signedInf (decide (a < 0))
  | fin a, fin b => round64 (a * b)

/-- Conversion of an integer to `double`. -/
def ofInt (n : Int) : F64 := round64 (n : ℚ)

/-- The value is a finite number lying strictly between -1 and 1. -/
def strictlyWithinOne : F64 → Prop
  | fin q => -1 < q ∧ q < 1
  | _ => False

instance (a : F64) : Decidable (strictlyWithinOne a) := by
  cases a <;> unfold strictlyWithinOne <;> infer_instance

end F64

/-- Smallest value of the 32-bit signed type `LONG`. -/
def LONG_MIN : Int := -2147483648

/-- Largest value of the 32-bit signed type `LONG`. -/
def LONG_MAX : Int := 2147483647

/-- The Windows type `LONG`: a 32-bit signed integer. -/
abbrev LONG : Type := { n : Int // LONG_MIN ≤ n ∧ n ≤ LONG_MAX }

/-- Rounding toward zero of a rational. -/
def truncate (q : ℚ) : Int := if 0 ≤ q then ⌊q⌋ else ⌈q⌉

/-- The value that the x64 conversion instruction (`cvttsd2si`) delivers when
the source is not-a-number, infinite, or outside the destination range. -/
def integer_indefinite : LONG := ⟨LONG_MIN, by decide⟩

/-- The conversion `static_cast<LONG>(d)` of a double: truncation toward zero
when the result fits a `LONG`, the x64 "integer indefinite" value otherwise. -/
def static_cast_LONG : F64 → LONG
  | F64.fin q =>
    if h : LONG_MIN ≤ truncate q ∧ truncate q ≤ LONG_MAX then ⟨truncate q, h⟩
    else integer_indefinite
  | _ => integer_indefinite

/-- The conversion `static_cast<double>(n)` of a `LONG`. -/
def static_cast_double (n : LONG) : F64 := F64.ofInt n.val

/-- The conversion `static_cast<float>(d)`: not-a-number and the infinities are
kept, a finite value beyond the largest float rounds to an infinity. -/
def static_cast_float : F64 → F64
  | F64.fin q =>
    if (2 : ℚ) ^ 128 - (2 : ℚ) ^ 103 ≤ q then F64.pinf
    else if q ≤ -((2 : ℚ) ^ 128 - (2 : ℚ) ^ 103) then F64.ninf
    else F64.fin q
  | d => d

/-- The C runtime test `_isnanf`. -/
def isnanf (f : F64) : Bool := F64.isnan f

/-! ## Data -/

/-- The alias `milliseconds` of `double`. -/
abbrev milliseconds : Type := F64

/-- The type of performance-counter readings (a signed 64-bit count; the
readings and their differences stay far inside its range). -/
abbrev counter_t : Type := Int

/-- The type `vec2d`: a pair of doubles. -/
structure vec2d where
  x : F64
  y : F64
  deriving DecidableEq

/-- Flag bit of `MOUSE_INPUT_DATA.Flags` marking absolute coordinates. -/
def MOUSE_MOVE_ABSOLUTE : Nat := 1

/-- The Windows record `MOUSE_INPUT_DATA`, one mouse packet. -/
structure MOUSE_INPUT_DATA where
  UnitId : Nat
  Flags : Nat
  Buttons : Nat
  RawButtons : Nat
  LastX : LONG
  LastY : LONG
  ExtraInformation : Nat
  deriving DecidableEq

/-- The Windows record `CONNECT_DATA`: the class driver's device object and
its service callback, both pointers. -/
structure CONNECT_DATA where
  ClassDeviceObject : Nat
  ClassService : Nat
  deriving DecidableEq

/-- The null pointer. -/
def NULL : Nat := 0

/-- The per-device context `DEVICE_EXTENSION`, with the fields the driver
uses. -/
structure DEVICE_EXTENSION where
  counter : counter_t
  carry : vec2d
  UpperConnectData : CONNECT_DATA
  deriving DecidableEq

/-- The configuration record `ra::settings`: the field `time_min` the driver
inspects, and every other field of the record (`rest`), which the driver only
copies. -/
structure settings (α : Type) where
  time_min : F64
  rest : α
  deriving DecidableEq

/-- The transform pipeline `ra::mouse_modifier`, as the driver sees it: three
stages acting on a movement vector.  The acceleration stage receives the time
supplier, a procedure that reads and updates the device's counter, and is free
to call it or not. -/
structure mouse_modifier where
  apply_rotation : vec2d → vec2d
  apply_acceleration :
    vec2d → (counter_t → milliseconds × counter_t) → counter_t → vec2d × counter_t
  apply_sensitivity : vec2d → vec2d

/-- The process-wide state `global`; `L` is the type of the pair of lookup
table pointers. -/
structure Global (α L : Type) where
  args : settings α
  tick_interval : milliseconds
  modifier : mouse_modifier
  lookups : L

/-- Modelled from the spec: the helper `clampsd(v, lo, hi)`, which is not part
of the source tree; the spec says the elapsed time is clamped to the interval
from `time_min` to 100 milliseconds. -/
def clampsd (v lo hi : F64) : F64 :=
  if F64.lt v lo then lo else if F64.lt hi v then hi else v

/-! ## The motion callback -/

/-- The lambda `time_supplier` of `RawaccelCallback`: `now` is the reading of
`KeQueryPerformanceCounter`, the argument is `devExt->counter`; the result is
the clamped elapsed time and the new value of `devExt->counter`. -/
def time_supplier (tick_interval time_min : milliseconds) (now : counter_t) :
    counter_t → milliseconds × counter_t :=
  fun counter =>
    let ticks : counter_t := now - counter
    let time : milliseconds := F64.mul (F64.ofInt ticks) tick_interval
    (clampsd time time_min (F64.fin 100), now)

/-- The first part of the body of the `do ... while` loop of
`RawaccelCallback` on the packet `it`: conversion of the packet to a vector,
rotation, acceleration when enabled, sensitivity.  Yields the vector `input` as
it stands before the carry is added, and the device's counter. -/
def stage_result {α L : Type} (g : Global α L) (now : counter_t) (enable_accel : Bool)
    (counter : counter_t) (it : MOUSE_INPUT_DATA) : vec2d × counter_t :=
  let input : vec2d := ⟨static_cast_double it.LastX, static_cast_double it.LastY⟩
  let input := g.modifier.apply_rotation input
  let accelerated : vec2d × counter_t :=
    if enable_accel then
      g.modifier.apply_acceleration input
        (time_supplier g.tick_interval g.args.time_min now) counter
    else (input, counter)
  (g.modifier.apply_sensitivity accelerated.1, accelerated.2)

/-- One execution of the body of the `do ... while` loop of
`RawaccelCallback` on the packet `it`, with the local `carry` and the device's
counter; yields the rewritten packet, the new `carry` and the new counter. -/
def loop_body {α L : Type} (g : Global α L) (now : counter_t) (enable_accel : Bool)
    (carry : vec2d) (counter : counter_t) (it : MOUSE_INPUT_DATA) :
    MOUSE_INPUT_DATA × vec2d × counter_t :=
  let staged := stage_result g now enable_accel counter it
  let input := staged.1
  let carried_result_x := F64.add input.x carry.x
  let carried_result_y := F64.add input.y carry.y
  let out_x := static_cast_LONG carried_result_x
  let out_y := static_cast_LONG carried_result_y
  let carry : vec2d :=
    ⟨F64.sub carried_result_x (static_cast_double out_x),
     F64.sub carried_result_y (static_cast_double out_y)⟩
  ({ it with LastX := out_x, LastY := out_y }, carry, staged.2)

/-- The `do ... while (++it != InputDataEnd)` loop of `RawaccelCallback` over
the packets from `it` to the end of the batch. -/
def packet_loop {α L : Type} (g : Global α L) (now : counter_t) (enable_accel : Bool) :
    vec2d → counter_t → List MOUSE_INPUT_DATA → List MOUSE_INPUT_DATA × vec2d × counter_t
  | carry, counter, [] => ([], carry, counter)
  | carry, counter, it :: rest =>
    let r := loop_body g now enable_accel carry counter it
    let t := packet_loop g now enable_accel r.2.1 r.2.2 rest
    (r.1 :: t.1, t.2.1, t.2.2)

/-- The call of the class service callback that ends `RawaccelCallback`. -/
structure ServiceCall where
  ClassService : Nat
  ClassDeviceObject : Nat
  InputDataStart : Nat
  InputDataEnd : Nat
  InputDataConsumed : Nat
  deriving DecidableEq

/-- What one run of `RawaccelCallback` leaves behind: the device context, the
packets of the batch, and the call made to the class service. -/
structure CallbackResult where
  devExt : DEVICE_EXTENSION
  packets : List MOUSE_INPUT_DATA
  call : ServiceCall
  deriving DecidableEq

/-- The routine `RawaccelCallback`.  `packets` is the content of the memory
from `InputDataStart` to `InputDataEnd` (pointers count in packets), `now` the
reading of the performance counter during the call.  An empty batch makes the
routine read outside the batch: no result. -/
def RawaccelCallback {α L : Type} (g : Global α L) (now : counter_t)
    (devExt : DEVICE_EXTENSION) (InputDataStart : Nat) (packets : List MOUSE_INPUT_DATA)
    (InputDataConsumed : Nat) : Option CallbackResult :=
  match packets with
  | [] => none
  | first :: _ =>
    let InputDataEnd := InputDataStart + packets.length
    let after : DEVICE_EXTENSION × List MOUSE_INPUT_DATA :=
      if first.Flags &&& MOUSE_MOVE_ABSOLUTE = 0 then
        let num_packets := InputDataEnd - InputDataStart
        let enable_accel := decide (num_packets = 1)
        let r := packet_loop g now enable_accel devExt.carry devExt.counter packets
        ({ devExt with counter := r.2.2, carry := r.2.1 }, r.1)
      else (devExt, packets)
    some
      { devExt := after.1
        packets := after.2
        call :=
          { ClassService := after.1.UpperConnectData.ClassService
            ClassDeviceObject := after.1.UpperConnectData.ClassDeviceObject
            InputDataStart := InputDataStart
            InputDataEnd := InputDataEnd
            InputDataConsumed := InputDataConsumed } }

/-! ## Status codes and control codes -/

/-- The Windows type `NTSTATUS`, a signed 32-bit code. -/
abbrev NTSTATUS : Type := Int

/-- The status `STATUS_SUCCESS`. -/
def STATUS_SUCCESS : NTSTATUS := 0

/-- The status `STATUS_NOT_IMPLEMENTED` (`0xC0000002`). -/
def STATUS_NOT_IMPLEMENTED : NTSTATUS := 0xC0000002 - 2 ^ 32

/-- The status `STATUS_SHARING_VIOLATION` (`0xC0000043`). -/
def STATUS_SHARING_VIOLATION : NTSTATUS := 0xC0000043 - 2 ^ 32

/-- The status `STATUS_INVALID_BUFFER_SIZE` (`0xC0000206`). -/
def STATUS_INVALID_BUFFER_SIZE : NTSTATUS := 0xC0000206 - 2 ^ 32

/-- The status `STATUS_MESSAGE_LOST` (`0xC0000701`). -/
def STATUS_MESSAGE_LOST : NTSTATUS := 0xC0000701 - 2 ^ 32

/-- The Windows test `NT_SUCCESS(status)`. -/
def NT_SUCCESS (status : NTSTATUS) : Bool := decide (0 ≤ status)

/-- The Windows construction `CTL_CODE(DeviceType, Function, Method, Access)`. -/
def CTL_CODE (DeviceType Function Method Access : Nat) : Nat :=
  (DeviceType <<< 16) ||| (Access <<< 14) ||| (Function <<< 2) ||| Method

/-- Transfer method `METHOD_BUFFERED`. -/
def METHOD_BUFFERED : Nat := 0

/-- Transfer method `METHOD_OUT_DIRECT`. -/
def METHOD_OUT_DIRECT : Nat := 2

/-- Transfer method `METHOD_NEITHER`. -/
def METHOD_NEITHER : Nat := 3

/-- Access `FILE_ANY_ACCESS`. -/
def FILE_ANY_ACCESS : Nat := 0

/-- Device type `FILE_DEVICE_MOUSE`. -/
def FILE_DEVICE_MOUSE : Nat := 0x0f

/-- The control code `RA_READ` of `driver.cpp`. -/
def RA_READ : Nat := CTL_CODE 0x8888 0x888 METHOD_OUT_DIRECT FILE_ANY_ACCESS

/-- The control code `RA_WRITE` of `driver.cpp`. -/
def RA_WRITE : Nat := CTL_CODE 0x8888 0x889 METHOD_BUFFERED FILE_ANY_ACCESS

/-- The control code `IOCTL_INTERNAL_MOUSE_CONNECT`. -/
def IOCTL_INTERNAL_MOUSE_CONNECT : Nat :=
  CTL_CODE FILE_DEVICE_MOUSE 0x0080 METHOD_NEITHER FILE_ANY_ACCESS

/-- The control code `IOCTL_INTERNAL_MOUSE_DISCONNECT`. -/
def IOCTL_INTERNAL_MOUSE_DISCONNECT : Nat :=
  CTL_CODE FILE_DEVICE_MOUSE 0x0100 METHOD_NEITHER FILE_ANY_ACCESS

/-- The control code `IOCTL_MOUSE_QUERY_ATTRIBUTES`. -/
def IOCTL_MOUSE_QUERY_ATTRIBUTES : Nat :=
  CTL_CODE FILE_DEVICE_MOUSE 0 METHOD_BUFFERED FILE_ANY_ACCESS

/-! ## The configuration channel -/

/-- What `driver.cpp` takes from `rawaccel.hpp`, which is not part of the
source tree: the size of the settings record, the default-constructed record
`ra::settings{}`, and the constructor of `ra::mouse_modifier` from a settings
record and the lookup tables. -/
structure RawaccelHpp (α L : Type) where
  sizeof_settings : Nat
  default_settings : settings α
  make_modifier : settings α → L → mouse_modifier

/-- A device-control request as `RawaccelControl` sees it: the three scalar
arguments, and what the framework answers when asked for the input buffer
(status and the record found in the buffer) and for the output buffer
(status). -/
structure ControlRequest (α : Type) where
  OutputBufferLength : Nat
  InputBufferLength : Nat
  IoControlCode : Nat
  RetrieveInputBuffer : NTSTATUS × settings α
  RetrieveOutputBuffer : NTSTATUS

/-- What one run of `RawaccelControl` leaves behind: the process-wide state,
the status the request was completed with, and the record copied to the output
buffer, if any. -/
structure ControlResult (α L : Type) where
  global : Global α L
  status : NTSTATUS
  output : Option (settings α)

/-- The routine `RawaccelControl`.  The settle delay before a write has no
effect on the state and is left out. -/
def RawaccelControl {α L : Type} (hpp : RawaccelHpp α L) (global : Global α L)
    (Request : ControlRequest α) : ControlResult α L :=
  if Request.IoControlCode = RA_WRITE ∧ Request.InputBufferLength = hpp.sizeof_settings then
    let status := Request.RetrieveInputBuffer.1
    if ¬ NT_SUCCESS status then
      { global := global, status := STATUS_MESSAGE_LOST, output := none }
    else
      let new_settings : settings α := Request.RetrieveInputBuffer.2
      let new_settings : settings α :=
        if F64.le new_settings.time_min (F64.fin 0)
            ∨ isnanf (static_cast_float new_settings.time_min) then
          { new_settings with time_min := hpp.default_settings.time_min }
        else new_settings
      let global : Global α L := { global with args := new_settings }
      let global : Global α L :=
        { global with modifier := hpp.make_modifier global.args global.lookups }
      { global := global, status := STATUS_SUCCESS, output := none }
  else if Request.IoControlCode = RA_READ
      ∧ Request.OutputBufferLength = hpp.sizeof_settings then
    let status := Request.RetrieveOutputBuffer
    if ¬ NT_SUCCESS status then
      { global := global, status := STATUS_MESSAGE_LOST, output := none }
    else
      { global := global, status := STATUS_SUCCESS, output := some global.args }
  else
    { global := global, status := STATUS_INVALID_BUFFER_SIZE, output := none }

/-- The process-wide state after `DriverEntry`: default-constructed settings
and modifier members, the tick interval and the lookup tables set there. -/
def initial_global {α L : Type} (hpp : RawaccelHpp α L) (default_modifier : mouse_modifier)
    (tick_interval : milliseconds) (lookups : L) : Global α L :=
  { args := hpp.default_settings
    tick_interval := tick_interval
    modifier := default_modifier
    lookups := lookups }

/-- The state reached from `global` by handling the requests of the list in
order. -/
def control_run {α L : Type} (hpp : RawaccelHpp α L) (global : Global α L) :
    List (ControlRequest α) → Global α L
  | [] => global
  | Request :: later => control_run hpp (RawaccelControl hpp global Request).global later

/-! ## The connect handler -/

/-- An internal device-control request as `EvtIoInternalDeviceControl` sees
it: the control code, what the framework answers when asked for the input
buffer (status and the connect data found there), and what sending the request
to the lower driver answers (`WdfRequestSend`, `WdfRequestGetStatus`). -/
structure InternalRequest where
  IoControlCode : Nat
  RetrieveInputBuffer : NTSTATUS × CONNECT_DATA
  RequestSend : Bool
  RequestGetStatus : NTSTATUS
  deriving DecidableEq

/-- How a request leaves the filter: completed with a status, or sent on to the
lower driver and forgotten. -/
inductive Disposition where
  | completed (status : NTSTATUS) : Disposition
  | sent : Disposition
  deriving DecidableEq

/-- The routine `DispatchPassThrough`. -/
def DispatchPassThrough (Request : InternalRequest) : Disposition :=
  if Request.RequestSend = false then Disposition.completed Request.RequestGetStatus
  else Disposition.sent

/-- What one run of `EvtIoInternalDeviceControl` leaves behind: the device
context, the connect data in the request's buffer, and how the request left. -/
structure InternalResult where
  devExt : DEVICE_EXTENSION
  connectData : CONNECT_DATA
  disposition : Disposition
  deriving DecidableEq

/-- The routine `EvtIoInternalDeviceControl`.  `DeviceObject` is the filter's
own device object and `Callback` the address of `RawaccelCallback`. -/
def EvtIoInternalDeviceControl (DeviceObject Callback : Nat) (devExt : DEVICE_EXTENSION)
    (Request : InternalRequest) : InternalResult :=
  let connectData := Request.RetrieveInputBuffer.2
  let r : NTSTATUS × DEVICE_EXTENSION × CONNECT_DATA :=
    if Request.IoControlCode = IOCTL_INTERNAL_MOUSE_CONNECT then
      if devExt.UpperConnectData.ClassService ≠ NULL then
        (STATUS_SHARING_VIOLATION, devExt, connectData)
      else
        let status := Request.RetrieveInputBuffer.1
        if ¬ NT_SUCCESS status then (status, devExt, connectData)
        else
          let devExt : DEVICE_EXTENSION :=
            { counter := 0, carry := ⟨F64.fin 0, F64.fin 0⟩, UpperConnectData := connectData }
          (status, devExt, { ClassDeviceObject := DeviceObject, ClassService := Callback })
    else if Request.IoControlCode = IOCTL_INTERNAL_MOUSE_DISCONNECT then
      (STATUS_NOT_IMPLEMENTED, devExt, connectData)
    else (STATUS_SUCCESS, devExt, connectData)
  if ¬ NT_SUCCESS r.1 then
    { devExt := r.2.1, connectData := r.2.2, disposition := Disposition.completed r.1 }
  else
    { devExt := r.2.1, connectData := r.2.2, disposition := DispatchPassThrough Request }

/-! ## Runs of the motion callback -/

/-- One delivery of a batch to `RawaccelCallback`: the counter reading during
the call and the three arguments that describe the batch. -/
structure Delivery where
  now : counter_t
  InputDataStart : Nat
  packets : List MOUSE_INPUT_DATA
  InputDataConsumed : Nat
  deriving DecidableEq

/-- The device context after `RawaccelCallback` has handled the deliveries of
the list in order, together with the rewritten batches. -/
def callback_run {α L : Type} (g : Global α L) :
    DEVICE_EXTENSION → List Delivery → Option (DEVICE_EXTENSION × List (List MOUSE_INPUT_DATA))
  | devExt, [] => some (devExt, [])
  | devExt, d :: later =>
    match RawaccelCallback g d.now devExt d.InputDataStart d.packets d.InputDataConsumed with
    | none => none
    | some r =>
      match callback_run g r.devExt later with
      | none => none
      | some t => some (t.1, r.packets :: t.2)

/-- Sum of the `LastX` fields of the packets of a list of batches. -/
def sum_LastX (batches : List (List MOUSE_INPUT_DATA)) : Int :=
  (batches.flatten.map (fun p => p.LastX.val)).sum

/-- Sum of the `LastY` fields of the packets of a list of batches. -/
def sum_LastY (batches : List (List MOUSE_INPUT_DATA)) : Int :=
  (batches.flatten.map (fun p => p.LastY.val)).sum

/-- The zero vector, the value of `carry` set at connect. -/
def zero_carry : vec2d := ⟨F64.fin 0, F64.fin 0⟩

/-! ## The range of `LONG` along a run -/

/-- The double is a finite value whose truncation toward zero is a `LONG`. -/
def fits_LONG : F64 → Prop
  | F64.fin q => LONG_MIN ≤ truncate q ∧ truncate q ≤ LONG_MAX
  | _ => False

instance (a : F64) : Decidable (fits_LONG a) := by
  cases a <;> unfold fits_LONG <;> infer_instance

/-- Along the loop of `RawaccelCallback` over the packets, every value
`carried_result_x` and `carried_result_y` fits a `LONG`. -/
def batch_fits {α L : Type} (g : Global α L) (now : counter_t) (enable_accel : Bool) :
    vec2d → counter_t → List MOUSE_INPUT_DATA → Bool
  | _, _, [] => true
  | carry, counter, it :: rest =>
    let input := (stage_result g now enable_accel counter it).1
    let r := loop_body g now enable_accel carry counter it
    decide (fits_LONG (F64.add input.x carry.x)) && decide (fits_LONG (F64.add input.y carry.y))
      && batch_fits g now enable_accel r.2.1 r.2.2 rest

/-- The device context after `RawaccelCallback` has handled the deliveries of
the list in order, each under the process-wide state of its moment, together
with the rewritten batches. -/
def report_run {α L : Type} :
    DEVICE_EXTENSION → List (Global α L × Delivery) →
      Option (DEVICE_EXTENSION × List (List MOUSE_INPUT_DATA))
  | devExt, [] => some (devExt, [])
  | devExt, (g, d) :: later =>
    match RawaccelCallback g d.now devExt d.InputDataStart d.packets d.InputDataConsumed with
    | none => none
    | some r =>
      match report_run r.devExt later with
      | none => none
      | some t => some (t.1, r.packets :: t.2)

/-- Along the deliveries of the list, every batch is non-empty and, in every
batch that the callback rewrites (first packet relative), every value
`carried_result_x` and `carried_result_y`, as the double addition delivers it,
fits a `LONG`. -/
def reports_fit {α L : Type} : DEVICE_EXTENSION → List (Global α L × Delivery) → Bool
  | _, [] => true
  | devExt, (g, d) :: later =>
    match d.packets.head?,
      RawaccelCallback g d.now devExt d.InputDataStart d.packets d.InputDataConsumed with
    | some first, some r =>
      (decide (first.Flags &&& MOUSE_MOVE_ABSOLUTE ≠ 0)
          || batch_fits g d.now (decide (d.packets.length = 1)) devExt.carry devExt.counter
              d.packets)
        && reports_fit r.devExt later
    | _, _ => false

/-! ## Sample data -/

/-- A pipeline whose three stages leave the movement unchanged; its
acceleration stage queries the time supplier once. -/
def identity_modifier : mouse_modifier :=
  { apply_rotation := fun v => v
    apply_acceleration := fun v supplier counter => (v, (supplier counter).2)
    apply_sensitivity := fun v => v }

/-- A pipeline whose sensitivity stage multiplies both axes by `k`, the other
stages as in `identity_modifier`. -/
def scaling_modifier (k : ℚ) : mouse_modifier :=
  { identity_modifier with
    apply_sensitivity := fun v => ⟨F64.mul v.x (F64.fin k), F64.mul v.y (F64.fin k)⟩ }

/-- A pipeline whose acceleration stage queries the time supplier once and
doubles the movement, the other stages as in `identity_modifier`. -/
def doubling_accel_modifier : mouse_modifier :=
  { identity_modifier with
    apply_acceleration := fun v supplier counter =>
      (⟨F64.mul v.x (F64.fin 2), F64.mul v.y (F64.fin 2)⟩, (supplier counter).2) }

/-- A process-wide state around the pipeline `m`: `time_min` of 10 ms and a
counter running at 10 MHz. -/
def sample_global (m : mouse_modifier) : Global Unit Unit :=
  { args := { time_min := F64.fin 10, rest := () }
    tick_interval := F64.fin (1 / 10000)
    modifier := m
    lookups := () }

/-- A device context as a connect leaves it. -/
def sample_devExt : DEVICE_EXTENSION :=
  { counter := 0, carry := zero_carry, UpperConnectData := ⟨64, 128⟩ }

/-- A relative packet with the displacement `(x, y)`. -/
def relative_packet (x y : LONG) : MOUSE_INPUT_DATA :=
  { UnitId := 0, Flags := 0, Buttons := 0, RawButtons := 0, LastX := x, LastY := y,
    ExtraInformation := 0 }

/-- Two deliveries: a batch of two packets, then a batch of one. -/
def sample_deliveries : List Delivery :=
  [ { now := 5000, InputDataStart := 16, InputDataConsumed := 8
      packets := [relative_packet ⟨3, by decide⟩ ⟨-1, by decide⟩,
                  relative_packet ⟨-7, by decide⟩ ⟨2, by decide⟩] },
    { now := 9000, InputDataStart := 16, InputDataConsumed := 8
      packets := [relative_packet ⟨5, by decide⟩ ⟨5, by decide⟩] } ]

/-- Three deliveries, each under its own process-wide state: the two batches
of `sample_deliveries` under a sensitivity of 1/2, then a batch of ten packets
`(1, -1)` under a sensitivity of 1/10. -/
def sample_reports : List (Global Unit Unit × Delivery) :=
  sample_deliveries.map (fun d => (sample_global (scaling_modifier (1 / 2)), d))
    ++ [ (sample_global (scaling_modifier (1 / 10)),
          { now := 12000, InputDataStart := 16, InputDataConsumed := 8
            packets := List.replicate 10 (relative_packet ⟨1, by decide⟩ ⟨-1, by decide⟩) }) ]

/-- One delivery of a single packet with the displacement `(2^30, 0)`. -/
def large_delivery : List Delivery :=
  [ { now := 5000, InputDataStart := 16, InputDataConsumed := 8
      packets := [relative_packet ⟨1073741824, by decide⟩ ⟨0, by decide⟩] } ]

/-- The double is a finite number. -/
def F64.isfinite : F64 → Bool
  | F64.fin _ => true
  | _ => false

/-- The normalisation of a written record in the words of the spec: a
`time_min` that is not finite or not greater than zero is replaced by the
default, nothing else changes. -/
def spec_normalize {α : Type} (default_settings R : settings α) : settings α :=
  if F64.isfinite R.time_min = true ∧ F64.lt (F64.fin 0) R.time_min = true then R
  else { R with time_min := default_settings.time_min }

/-- A stand-in for `rawaccel.hpp`: records of 64 bytes whose other fields are
one number, a default `time_min` of 0.1 ms, and a modifier that scales by that
number. -/
def sample_hpp : RawaccelHpp ℚ Unit :=
  { sizeof_settings := 64
    default_settings := { time_min := F64.fin (1 / 10), rest := 1 }
    make_modifier := fun args _ => scaling_modifier args.rest }

/-- The process-wide state after `DriverEntry`, for `sample_hpp`. -/
def sample_initial : Global ℚ Unit :=
  initial_global sample_hpp identity_modifier (F64.fin (1 / 10000)) ()

/-- A correctly sized write request carrying the record `R`. -/
def write_request (R : settings ℚ) : ControlRequest ℚ :=
  { OutputBufferLength := 0
    InputBufferLength := 64
    IoControlCode := RA_WRITE
    RetrieveInputBuffer := (STATUS_SUCCESS, R)
    RetrieveOutputBuffer := STATUS_INVALID_BUFFER_SIZE }

/-- A correctly sized read request. -/
def read_request : ControlRequest ℚ :=
  { OutputBufferLength := 64
    InputBufferLength := 0
    IoControlCode := RA_READ
    RetrieveInputBuffer := (STATUS_INVALID_BUFFER_SIZE, { time_min := F64.nan, rest := 0 })
    RetrieveOutputBuffer := STATUS_SUCCESS }

/-! ## The pipeline in the words of the spec -/

/-- Stage 4 of the spec's pipeline on one axis: add the carry to the stage
result, truncate toward zero to an integer for output, keep `result -
truncated` as the new carry. -/
def spec_carry_axis (v carry : F64) : LONG × F64 :=
  let result := F64.add v carry
  let truncated := static_cast_LONG result
  (truncated, F64.sub result (static_cast_double truncated))

/-- A packet with its two displacement fields replaced by the outputs of
stage 4 on the vector `v`, and the new carry. -/
def spec_rewrite (v carry : vec2d) (it : MOUSE_INPUT_DATA) : MOUSE_INPUT_DATA × vec2d :=
  ({ it with LastX := (spec_carry_axis v.x carry.x).1, LastY := (spec_carry_axis v.y carry.y).1 },
   ⟨(spec_carry_axis v.x carry.x).2, (spec_carry_axis v.y carry.y).2⟩)

/-- One sample through the spec's pipeline with acceleration disabled:
rotation, then sensitivity, then carry accumulation. -/
def spec_sample_without_accel (m : mouse_modifier) (carry : vec2d) (it : MOUSE_INPUT_DATA) :
    MOUSE_INPUT_DATA × vec2d :=
  spec_rewrite
    (m.apply_sensitivity
      (m.apply_rotation ⟨static_cast_double it.LastX, static_cast_double it.LastY⟩))
    carry it

/-- A batch through the spec's pipeline with acceleration disabled for the
entire batch: the samples in order, the carry handed from each to the next. -/
def spec_batch_without_accel (m : mouse_modifier) (carry : vec2d)
    (packets : List MOUSE_INPUT_DATA) : List MOUSE_INPUT_DATA × vec2d :=
  packets.foldl
    (fun done it => (done.1 ++ [(spec_sample_without_accel m done.2 it).1],
      (spec_sample_without_accel m done.2 it).2))
    ([], carry)

/-- Two packets agree in every field other than `LastX` and `LastY`. -/
def same_but_displacement (a b : MOUSE_INPUT_DATA) : Prop :=
  a.UnitId = b.UnitId ∧ a.Flags = b.Flags ∧ a.Buttons = b.Buttons
    ∧ a.RawButtons = b.RawButtons ∧ a.ExtraInformation = b.ExtraInformation

/-! ## Events on one stream -/

/-- What happens on one stream: an internal device-control request, or the
delivery of a batch to `RawaccelCallback` under the process-wide state of that
moment. -/
inductive StreamEvent (α L : Type) where
  | request (Request : InternalRequest) : StreamEvent α L
  | report (g : Global α L) (d : Delivery) : StreamEvent α L

/-- The device context after one event (an empty batch is never delivered and
leaves the context as it is). -/
def stream_step {α L : Type} (DeviceObject Callback : Nat) (devExt : DEVICE_EXTENSION) :
    StreamEvent α L → DEVICE_EXTENSION
  | StreamEvent.request Request =>
    (EvtIoInternalDeviceControl DeviceObject Callback devExt Request).devExt
  | StreamEvent.report g d =>
    match RawaccelCallback g d.now devExt d.InputDataStart d.packets d.InputDataConsumed with
    | some r => r.devExt
    | none => devExt

/-- The device context after the events of the list, in order. -/
def stream_run {α L : Type} (DeviceObject Callback : Nat) (devExt : DEVICE_EXTENSION)
    (events : List (StreamEvent α L)) : DEVICE_EXTENSION :=
  events.foldl (stream_step DeviceObject Callback) devExt

/-- A device context before any connect: no class service recorded. -/
def disconnected_devExt : DEVICE_EXTENSION :=
  { counter := 0, carry := zero_carry, UpperConnectData := ⟨NULL, NULL⟩ }

/-- A connect request carrying the connect data `connectData`, with the buffer
delivered and the lower driver accepting the request. -/
def connect_request (connectData : CONNECT_DATA) : InternalRequest :=
  { IoControlCode := IOCTL_INTERNAL_MOUSE_CONNECT
    RetrieveInputBuffer := (STATUS_SUCCESS, connectData)
    RequestSend := true
    RequestGetStatus := STATUS_SUCCESS }

/-- A disconnect request. -/
def disconnect_request : InternalRequest :=
  { connect_request ⟨NULL, NULL⟩ with IoControlCode := IOCTL_INTERNAL_MOUSE_DISCONNECT }

/-- Events after a connect: a batch of one packet through a pipeline that
halves the movement, a disconnect request, a batch of two packets. -/
def sample_events : List (StreamEvent Unit Unit) :=
  [ StreamEvent.report (sample_global (scaling_modifier (1 / 2)))
      { now := 5000, InputDataStart := 16, InputDataConsumed := 8
        packets := [relative_packet ⟨3, by decide⟩ ⟨-1, by decide⟩] },
    StreamEvent.request disconnect_request,
    StreamEvent.report (sample_global identity_modifier)
      { now := 9000, InputDataStart := 16, InputDataConsumed := 8
        packets := [relative_packet ⟨4, by decide⟩ ⟨4, by decide⟩,
                    relative_packet ⟨-2, by decide⟩ ⟨0, by decide⟩] } ]

/-- An absolute packet with the coordinates `(x, y)`: the flag
`MOUSE_MOVE_ABSOLUTE` is set. -/
def absolute_packet (x y : LONG) : MOUSE_INPUT_DATA :=
  { relative_packet x y with Flags := MOUSE_MOVE_ABSOLUTE }

/-- A device context in the middle of a connection: a counter of 700 and a
carry of `(1/4, -3/4)`. -/
def busy_devExt : DEVICE_EXTENSION :=
  { counter := 700, carry := ⟨F64.fin (1 / 4), F64.fin (-3 / 4)⟩, UpperConnectData := ⟨64, 128⟩ }

/-! # Theorems -/

/-! ## Lemmas on the numbers -/

theorem truncate_intCast (n : Int) : truncate (n : ℚ) = n := by
  unfold truncate
  split_ifs <;> simp

theorem truncate_remainder (q : ℚ) : -1 < q - (truncate q : ℚ) ∧ q - (truncate q : ℚ) < 1 := by
  unfold truncate
  split_ifs with h
  · have h1 := Int.floor_le q
    have h2 := Int.lt_floor_add_one q
    constructor <;> linarith
  · have h1 := Int.le_ceil q
    have h2 := Int.ceil_lt_add_one q
    constructor <;> linarith

theorem bits_lt (fuel n : Nat) (h : n ≤ fuel) : n < 2 ^ bits fuel n := by
  induction fuel generalizing n with
  | zero => simp at h; subst h; simp [bits]
  | succ f ih =>
    unfold bits
    split_ifs with h0
    · subst h0; simp
    · have := ih (n / 2) (by omega)
      rw [pow_succ]
      omega

theorem bits_le (fuel n : Nat) (h : n ≤ fuel) (h0 : n ≠ 0) : 2 ^ bits fuel n ≤ 2 * n := by
  induction fuel generalizing n with
  | zero => omega
  | succ f ih =>
    unfold bits
    rw [if_neg h0, pow_succ]
    by_cases h1 : n / 2 = 0
    · have : n = 1 := by omega
      subst this
      cases f <;> simp [bits]
    · have := ih (n / 2) (by omega) h1
      omega

theorem abs_eq_natAbs_div_den (q : ℚ) : |q| = (q.num.natAbs : ℚ) / (q.den : ℚ) := by
  conv_lhs => rw [← Rat.num_div_den q]
  rw [abs_div, Nat.abs_cast, Nat.cast_natAbs, Int.cast_abs]

theorem ilog2_bounds (q : ℚ) (hq : q ≠ 0) :
    (2 : ℚ) ^ ilog2 q ≤ |q| ∧ |q| < (2 : ℚ) ^ (ilog2 q + 1) := by
  have ha0 : q.num.natAbs ≠ 0 := by
    simpa [Int.natAbs_eq_zero] using hq
  have hd0 : q.den ≠ 0 := q.den_nz
  have hdpos : (0 : ℚ) < (q.den : ℚ) := by exact_mod_cast Nat.pos_of_ne_zero hd0
  have h1 : ((q.num.natAbs : ℕ) : ℚ) < (2 : ℚ) ^ bits q.num.natAbs q.num.natAbs := by
    exact_mod_cast bits_lt _ _ le_rfl
  have h2 : (2 : ℚ) ^ bits q.num.natAbs q.num.natAbs ≤ 2 * (q.num.natAbs : ℚ) := by
    exact_mod_cast bits_le _ _ le_rfl ha0
  have h3 : ((q.den : ℕ) : ℚ) < (2 : ℚ) ^ bits q.den q.den := by
    exact_mod_cast bits_lt _ _ le_rfl
  have h4 : (2 : ℚ) ^ bits q.den q.den ≤ 2 * (q.den : ℚ) := by
    exact_mod_cast bits_le _ _ le_rfl hd0
  have hA : (0 : ℚ) < (2 : ℚ) ^ bits q.num.natAbs q.num.natAbs := by positivity
  have hD : (0 : ℚ) < (2 : ℚ) ^ bits q.den q.den := by positivity
  have hk : (2 : ℚ) ^ ((bits q.num.natAbs q.num.natAbs : ℤ) - (bits q.den q.den : ℤ))
      = (2 : ℚ) ^ bits q.num.natAbs q.num.natAbs / (2 : ℚ) ^ bits q.den q.den := by
    rw [zpow_sub₀ (by norm_num : (2 : ℚ) ≠ 0), zpow_natCast, zpow_natCast]
  have habs := abs_eq_natAbs_div_den q
  unfold ilog2
  simp only
  split_ifs with h
  · refine ⟨h, ?_⟩
    rw [zpow_add_one₀ (by norm_num : (2 : ℚ) ≠ 0), hk, habs, div_lt_iff₀ hdpos]
    have : (2 : ℚ) ^ bits q.num.natAbs q.num.natAbs / (2 : ℚ) ^ bits q.den q.den * 2 * (q.den : ℚ)
        = (2 : ℚ) ^ bits q.num.natAbs q.num.natAbs * (2 * (q.den : ℚ) / (2 : ℚ) ^ bits q.den q.den) := by
      field_simp
      ring
    rw [this]
    have h5 : (1 : ℚ) ≤ 2 * (q.den : ℚ) / (2 : ℚ) ^ bits q.den q.den := by
      rw [le_div_iff₀ hD]; linarith
    nlinarith
  · rw [not_le] at h
    refine ⟨?_, by simpa using h⟩
    rw [zpow_sub_one₀ (by norm_num : (2 : ℚ) ≠ 0), hk, habs, le_div_iff₀ hdpos]
    have : (2 : ℚ) ^ bits q.num.natAbs q.num.natAbs / (2 : ℚ) ^ bits q.den q.den * 2⁻¹ * (q.den : ℚ)
        = (2 : ℚ) ^ bits q.num.natAbs q.num.natAbs / 2 * ((q.den : ℚ) / (2 : ℚ) ^ bits q.den q.den) := by
      field_simp
      ring
    rw [this]
    have h5 : (q.den : ℚ) / (2 : ℚ) ^ bits q.den q.den ≤ 1 := by
      rw [div_le_iff₀ hD]; linarith
    have h6 : (0 : ℚ) ≤ (q.den : ℚ) / (2 : ℚ) ^ bits q.den q.den := by positivity
    nlinarith

theorem round_half_even_intCast (k : ℤ) : round_half_even (k : ℚ) = k := by
  simp [round_half_even]

theorem round64_of_isDouble (v : ℚ) (h : IsDouble v) : round64 v = F64.fin v := by
  obtain ⟨m, e, hm, he, hv, hlt⟩ := h
  have h2 : (2 : ℚ) ≠ 0 := by norm_num
  have key : ∃ k : ℤ, v / (2 : ℚ) ^ (max (ilog2 v - 52) (-1074)) = (k : ℚ) := by
    by_cases hm0 : m = 0
    · exact ⟨0, by rw [hv, hm0]; simp⟩
    · have hv0 : v ≠ 0 := by
        rw [hv]; exact mul_ne_zero (by exact_mod_cast hm0) (zpow_ne_zero _ h2)
      have hle := (ilog2_bounds v hv0).1
      have hvlt : |v| < (2 : ℚ) ^ (53 + e) := by
        rw [hv, abs_mul, abs_of_pos (zpow_pos (by norm_num : (0 : ℚ) < 2) e),
          zpow_add₀ h2]
        have : |(m : ℚ)| < (2 : ℚ) ^ (53 : ℤ) := by
          have h := (Int.cast_lt (R := ℚ)).mpr hm
          push_cast at h
          norm_num at h ⊢
          exact h
        exact mul_lt_mul_of_pos_right this (zpow_pos (by norm_num) e)
      have hlog : ilog2 v < 53 + e := by
        have := lt_of_le_of_lt hle hvlt
        exact (zpow_lt_zpow_iff_right₀ (by norm_num : (1 : ℚ) < 2)).mp this
      have hE : max (ilog2 v - 52) (-1074) ≤ e := max_le (by omega) he
      generalize max (ilog2 v - 52) (-1074) = E at hE ⊢
      obtain ⟨n, hn⟩ := Int.eq_ofNat_of_zero_le (sub_nonneg.mpr hE)
      refine ⟨m * 2 ^ n, ?_⟩
      rw [hv, mul_div_assoc, ← zpow_sub₀ h2, hn]
      push_cast
      rw [zpow_natCast]
  obtain ⟨k, hk⟩ := key
  unfold round64
  simp only
  rw [hk, round_half_even_intCast, ← hk, div_mul_cancel₀ _ (zpow_ne_zero _ h2),
    if_neg (not_le.mpr hlt)]

theorem round_half_even_bounds (x : ℚ) :
    ⌊x⌋ ≤ round_half_even x ∧ round_half_even x ≤ ⌈x⌉ := by
  unfold round_half_even
  have hfc : ⌊x⌋ ≤ ⌈x⌉ := Int.floor_le_ceil x
  split_ifs with h1 h2 h3
  · exact ⟨le_rfl, hfc⟩
  · have : ⌊x⌋ < ⌈x⌉ := Int.lt_ceil.mpr (by linarith)
    exact ⟨by omega, by omega⟩
  · exact ⟨le_rfl, hfc⟩
  · have : ⌊x⌋ < ⌈x⌉ := Int.lt_ceil.mpr (by linarith)
    exact ⟨by omega, by omega⟩

theorem isDouble_of_round64 (q v : ℚ) (h : round64 q = F64.fin v) : IsDouble v := by
  have h2 : (2 : ℚ) ≠ 0 := by norm_num
  unfold round64 at h
  simp only at h
  split_ifs at h with hov hpos
  rw [not_le] at hov
  have hv := F64.fin.inj h
  rw [hv] at hov
  have hE : -1074 ≤ max (ilog2 q - 52) (-1074) := le_max_right _ _
  have hE2 : ilog2 q - 52 ≤ max (ilog2 q - 52) (-1074) := le_max_left _ _
  generalize max (ilog2 q - 52) (-1074) = E at hv hE hE2
  have hEpos : (0 : ℚ) < (2 : ℚ) ^ E := zpow_pos (by norm_num) E
  have hx : |q / (2 : ℚ) ^ E| < (2 : ℚ) ^ (53 : ℕ) := by
    by_cases hq : q = 0
    · rw [hq]; simp
    · have hlt := (ilog2_bounds q hq).2
      have hmono : (2 : ℚ) ^ (ilog2 q + 1) ≤ (2 : ℚ) ^ (E + 53) :=
        (zpow_le_zpow_iff_right₀ (by norm_num : (1 : ℚ) < 2)).mpr (by omega)
      rw [abs_div, abs_of_pos hEpos, div_lt_iff₀ hEpos]
      calc |q| < (2 : ℚ) ^ (E + 53) := lt_of_lt_of_le hlt hmono
        _ = (2 : ℚ) ^ (53 : ℕ) * (2 : ℚ) ^ E := by
          rw [zpow_add₀ h2, mul_comm]; norm_cast
  obtain ⟨hlo, hhi⟩ := round_half_even_bounds (q / (2 : ℚ) ^ E)
  have hx' := abs_lt.mp hx
  have hlo' : -(2 : ℤ) ^ 53 ≤ ⌊q / (2 : ℚ) ^ E⌋ := by
    apply Int.le_floor.mpr
    push_cast
    linarith [hx'.1]
  have hhi' : ⌈q / (2 : ℚ) ^ E⌉ ≤ (2 : ℤ) ^ 53 := by
    apply Int.ceil_le.mpr
    push_cast
    linarith [hx'.2]
  generalize round_half_even (q / (2 : ℚ) ^ E) = M at hv hlo hhi
  have hM : -(2 : ℤ) ^ 53 ≤ M ∧ M ≤ (2 : ℤ) ^ 53 := ⟨by omega, by omega⟩
  by_cases hlt : |M| < 2 ^ 53
  · exact ⟨M, E, hlt, hE, hv.symm, hov⟩
  · have hcase : M = 2 ^ 53 ∨ M = -2 ^ 53 := by
      rw [abs_lt, not_and_or] at hlt
      rcases hlt with h | h <;> omega
    rcases hcase with h | h
    · refine ⟨2 ^ 52, E + 1, by norm_num, by omega, ?_, hov⟩
      rw [← hv, h, zpow_add_one₀ h2]
      push_cast
      ring
    · refine ⟨-2 ^ 52, E + 1, by norm_num, by omega, ?_, hov⟩
      rw [← hv, h, zpow_add_one₀ h2]
      push_cast
      ring

theorem truncate_remainder_abs_le (q : ℚ) : |q - (truncate q : ℚ)| ≤ |q| := by
  unfold truncate
  split_ifs with h
  · have h1 := Int.floor_le q
    have h0 : (0 : ℚ) ≤ (⌊q⌋ : ℚ) := by exact_mod_cast Int.floor_nonneg.mpr h
    rw [abs_of_nonneg (by linarith), abs_of_nonneg h]
    linarith
  · rw [not_le] at h
    have h1 := Int.le_ceil q
    have h0 : ((⌈q⌉ : ℤ) : ℚ) ≤ 0 := by
      exact_mod_cast Int.ceil_le.mpr (by simpa using h.le)
    rw [abs_of_nonpos (by linarith), abs_of_neg h]
    linarith

theorem isDouble_intCast (n : ℤ) (h : |n| < 2 ^ 53) : IsDouble (n : ℚ) := by
  refine ⟨n, 0, h, by norm_num, by simp, ?_⟩
  have h1 := (Int.cast_lt (R := ℚ)).mpr h
  push_cast at h1
  calc |(n : ℚ)| < (2 : ℚ) ^ 53 := h1
    _ ≤ (2 : ℚ) ^ 1024 := by norm_num

theorem isDouble_remainder (v : ℚ) (h : IsDouble v) : IsDouble (v - (truncate v : ℚ)) := by
  obtain ⟨m, e, hm, he, hv, hlt⟩ := h
  have h2 : (2 : ℚ) ≠ 0 := by norm_num
  have hsmall : |v - (truncate v : ℚ)| < (2 : ℚ) ^ 1024 :=
    lt_of_le_of_lt (truncate_remainder_abs_le v) hlt
  by_cases he0 : 0 ≤ e
  · obtain ⟨n, hn⟩ := Int.eq_ofNat_of_zero_le he0
    have hint : v = ((m * 2 ^ n : ℤ) : ℚ) := by
      rw [hv, hn, zpow_natCast]; push_cast; rfl
    have : v - (truncate v : ℚ) = ((0 : ℤ) : ℚ) := by
      rw [hint, truncate_intCast]; simp
    rw [this]
    exact isDouble_intCast 0 (by norm_num)
  · rw [not_le] at he0
    obtain ⟨n, hn⟩ := Int.eq_ofNat_of_zero_le (by omega : 0 ≤ -e)
    have hpow : (2 : ℚ) ^ e * (2 : ℚ) ^ n = 1 := by
      rw [← zpow_natCast, ← hn, ← zpow_add₀ h2]; simp
    have hepos : (0 : ℚ) < (2 : ℚ) ^ e := zpow_pos (by norm_num) e
    have hrep : v - (truncate v : ℚ) = ((m - truncate v * 2 ^ n : ℤ) : ℚ) * (2 : ℚ) ^ e := by
      push_cast
      rw [sub_mul, ← hv, mul_assoc, mul_comm ((2 : ℚ) ^ n), hpow, mul_one]
    refine ⟨m - truncate v * 2 ^ n, e, ?_, he, hrep, hsmall⟩
    have hle := truncate_remainder_abs_le v
    rw [hrep] at hle
    nth_rewrite 2 [hv] at hle
    rw [abs_mul, abs_mul, abs_of_pos hepos] at hle
    have hle2 := le_of_mul_le_mul_right hle hepos
    have hle3 : |m - truncate v * 2 ^ n| ≤ |m| := by
      have : ((|m - truncate v * 2 ^ n| : ℤ) : ℚ) ≤ ((|m| : ℤ) : ℚ) := by
        push_cast
        push_cast at hle2
        exact hle2
      exact_mod_cast this
    omega

theorem LONG_abs_lt (n : LONG) : |n.val| < 2 ^ 53 := by
  obtain ⟨v, h1, h2⟩ := n
  simp only [LONG_MIN, LONG_MAX] at h1 h2
  rw [abs_lt]
  constructor <;> simp only <;> omega

theorem static_cast_double_eq (n : LONG) : static_cast_double n = F64.fin (n.val : ℚ) := by
  unfold static_cast_double F64.ofInt
  exact round64_of_isDouble _ (isDouble_intCast _ (LONG_abs_lt n))

theorem static_cast_LONG_of_LONG (n : LONG) :
    static_cast_LONG (F64.add (static_cast_double n) (F64.fin 0)) = n := by
  rw [static_cast_double_eq]
  obtain ⟨v, hv⟩ := n
  have hr : round64 ((v : ℚ) + 0) = F64.fin (v : ℚ) := by
    rw [add_zero]
    exact round64_of_isDouble _ (isDouble_intCast _ (LONG_abs_lt ⟨v, hv⟩))
  simp only [F64.add, hr, static_cast_LONG, truncate_intCast]
  rw [dif_pos hv]

theorem sub_self_LONG (n : LONG) :
    F64.sub (F64.add (static_cast_double n) (F64.fin 0)) (static_cast_double n) = F64.fin 0 := by
  rw [static_cast_double_eq]
  have hr : round64 ((n.val : ℚ) + 0) = F64.fin (n.val : ℚ) := by
    rw [add_zero]
    exact round64_of_isDouble _ (isDouble_intCast _ (LONG_abs_lt n))
  have h0 : round64 ((n.val : ℚ) + -(n.val : ℚ)) = F64.fin 0 := by
    rw [add_neg_cancel]
    exact round64_of_isDouble _ (by simpa using isDouble_intCast 0 (by norm_num))
  simp only [F64.add, F64.sub, F64.neg, hr, h0]

theorem isDouble_of_add (a b : F64) (v : ℚ) (h : F64.add a b = F64.fin v) : IsDouble v := by
  cases a <;> cases b <;> simp only [F64.add, reduceCtorEq] at h
  exact isDouble_of_round64 _ _ h

/-! ## Carry conservation -/

theorem loop_body_identity {α L : Type} (g : Global α L) (now : counter_t) (e : Bool)
    (counter : counter_t) (it : MOUSE_INPUT_DATA)
    (hrot : ∀ v, g.modifier.apply_rotation v = v)
    (hacc : ∀ v s c, (g.modifier.apply_acceleration v s c).1 = v)
    (hsens : ∀ v, g.modifier.apply_sensitivity v = v) :
    (loop_body g now e zero_carry counter it).1 = it
      ∧ (loop_body g now e zero_carry counter it).2.1 = zero_carry := by
  cases e <;>
    simp [loop_body, stage_result, hrot, hacc, hsens, zero_carry, static_cast_LONG_of_LONG, sub_self_LONG]

theorem packet_loop_identity {α L : Type} (g : Global α L) (now : counter_t) (e : Bool)
    (hrot : ∀ v, g.modifier.apply_rotation v = v)
    (hacc : ∀ v s c, (g.modifier.apply_acceleration v s c).1 = v)
    (hsens : ∀ v, g.modifier.apply_sensitivity v = v)
    (packets : List MOUSE_INPUT_DATA) (counter : counter_t) :
    (packet_loop g now e zero_carry counter packets).1 = packets
      ∧ (packet_loop g now e zero_carry counter packets).2.1 = zero_carry := by
  induction packets generalizing counter with
  | nil => simp [packet_loop]
  | cons it rest ih =>
    have hb := loop_body_identity g now e counter it hrot hacc hsens
    simp only [packet_loop]
    rw [hb.2, hb.1]
    exact ⟨by rw [(ih _).1], (ih _).2⟩

theorem callback_run_identity {α L : Type} (g : Global α L)
    (hrot : ∀ v, g.modifier.apply_rotation v = v)
    (hacc : ∀ v s c, (g.modifier.apply_acceleration v s c).1 = v)
    (hsens : ∀ v, g.modifier.apply_sensitivity v = v)
    (ds : List Delivery) (devExt : DEVICE_EXTENSION) (hcarry : devExt.carry = zero_carry)
    (hrel : ∀ d ∈ ds, ∃ first rest,
      d.packets = first :: rest ∧ first.Flags &&& MOUSE_MOVE_ABSOLUTE = 0) :
    ∃ devExt1, callback_run g devExt ds = some (devExt1, ds.map (fun d => d.packets))
      ∧ devExt1.carry = zero_carry := by
  induction ds generalizing devExt with
  | nil => exact ⟨devExt, rfl, hcarry⟩
  | cons d later ih =>
    obtain ⟨first, rest, hp, hflag⟩ := hrel d (List.mem_cons_self _ _)
    have hl := packet_loop_identity g d.now
      (decide (d.InputDataStart + (first :: rest).length - d.InputDataStart = 1))
      hrot hacc hsens (first :: rest) devExt.counter
    obtain ⟨devExt1, hrun, hc1⟩ := ih
      { devExt with
        counter := (packet_loop g d.now
          (decide (d.InputDataStart + (first :: rest).length - d.InputDataStart = 1))
          zero_carry devExt.counter (first :: rest)).2.2
        carry := zero_carry } rfl
      (fun d1 h1 => hrel d1 (List.mem_cons_of_mem _ h1))
    refine ⟨devExt1, ?_, hc1⟩
    simp only [callback_run, RawaccelCallback, hp, hflag, if_true, hcarry, hl.1, hl.2, hrun,
      List.map_cons]

/-- C1. Carry conservation: with identity rotation, acceleration and
sensitivity stages and a carry that starts at zero, for every sequence of
non-empty relative batches handled by `RawaccelCallback`, on each axis the sum
of the integers written to the packets plus the final stored carry equals the
sum of the integers received. -/
theorem carry_conservation {α L : Type} (g : Global α L)
    (hrot : ∀ v, g.modifier.apply_rotation v = v)
    (hacc : ∀ v s c, (g.modifier.apply_acceleration v s c).1 = v)
    (hsens : ∀ v, g.modifier.apply_sensitivity v = v)
    (devExt : DEVICE_EXTENSION) (hcarry : devExt.carry = zero_carry) (ds : List Delivery)
    (hrel : ∀ d ∈ ds, ∃ first rest,
      d.packets = first :: rest ∧ first.Flags &&& MOUSE_MOVE_ABSOLUTE = 0) :
    ∃ devExt1 outs cx cy,
      callback_run g devExt ds = some (devExt1, outs)
        ∧ devExt1.carry = ⟨F64.fin cx, F64.fin cy⟩
        ∧ (sum_LastX outs : ℚ) + cx = (sum_LastX (ds.map (fun d => d.packets)) : ℚ)
        ∧ (sum_LastY outs : ℚ) + cy = (sum_LastY (ds.map (fun d => d.packets)) : ℚ) := by
  obtain ⟨devExt1, hrun, hc⟩ := callback_run_identity g hrot hacc hsens ds devExt hcarry hrel
  exact ⟨devExt1, _, 0, 0, hrun, hc, by simp, by simp⟩

/-! ## Carry bound -/

theorem remainder_within_one (a b : F64) (h : fits_LONG (F64.add a b)) :
    F64.strictlyWithinOne
      (F64.sub (F64.add a b) (static_cast_double (static_cast_LONG (F64.add a b)))) := by
  cases hr : F64.add a b with
  | fin v =>
    rw [hr] at h
    have hq : LONG_MIN ≤ truncate v ∧ truncate v ≤ LONG_MAX := h
    have hd := isDouble_remainder v (isDouble_of_add a b v hr)
    have hrem := truncate_remainder v
    have hround : round64 (v + -(truncate v : ℚ)) = F64.fin (v - (truncate v : ℚ)) := by
      rw [← sub_eq_add_neg]
      exact round64_of_isDouble _ hd
    simp only [static_cast_LONG, dif_pos hq, static_cast_double_eq, F64.sub, F64.neg, F64.add,
      hround, F64.strictlyWithinOne]
    exact hrem
  | nan => rw [hr] at h; exact h.elim
  | pinf => rw [hr] at h; exact h.elim
  | ninf => rw [hr] at h; exact h.elim

theorem packet_loop_within_one {α L : Type} (g : Global α L) (now : counter_t) (e : Bool)
    (packets : List MOUSE_INPUT_DATA) (carry : vec2d) (counter : counter_t)
    (hx : F64.strictlyWithinOne carry.x) (hy : F64.strictlyWithinOne carry.y)
    (hfit : batch_fits g now e carry counter packets = true) :
    F64.strictlyWithinOne (packet_loop g now e carry counter packets).2.1.x
      ∧ F64.strictlyWithinOne (packet_loop g now e carry counter packets).2.1.y := by
  induction packets generalizing carry counter with
  | nil => exact ⟨hx, hy⟩
  | cons it rest ih =>
    simp only [batch_fits, Bool.and_eq_true, decide_eq_true_eq] at hfit
    obtain ⟨⟨fx, fy⟩, frest⟩ := hfit
    simp only [packet_loop]
    exact ih _ _ (remainder_within_one _ _ fx) (remainder_within_one _ _ fy) frest

theorem report_run_within_one {α L : Type} (reports : List (Global α L × Delivery))
    (devExt : DEVICE_EXTENSION)
    (hx : F64.strictlyWithinOne devExt.carry.x) (hy : F64.strictlyWithinOne devExt.carry.y)
    (hfit : reports_fit devExt reports = true) :
    ∃ devExt1 outs, report_run devExt reports = some (devExt1, outs)
      ∧ F64.strictlyWithinOne devExt1.carry.x ∧ F64.strictlyWithinOne devExt1.carry.y := by
  induction reports generalizing devExt with
  | nil => exact ⟨devExt, [], rfl, hx, hy⟩
  | cons report later ih =>
    obtain ⟨g, d⟩ := report
    cases hp : d.packets with
    | nil => simp [reports_fit, hp] at hfit
    | cons first rest =>
      simp only [reports_fit, RawaccelCallback, hp, List.head?_cons, List.length_cons,
        add_tsub_cancel_left, Bool.and_eq_true, Bool.or_eq_true, decide_eq_true_eq] at hfit
      simp only [report_run, RawaccelCallback, hp, List.length_cons, add_tsub_cancel_left]
      by_cases hflag : first.Flags &&& MOUSE_MOVE_ABSOLUTE = 0
      · simp only [hflag, if_true, ne_eq, not_true_eq_false, false_or] at hfit ⊢
        obtain ⟨devExt1, outs, hrun, h1, h2⟩ := ih _
          (packet_loop_within_one g d.now _ _ _ _ hx hy hfit.1).1
          (packet_loop_within_one g d.now _ _ _ _ hx hy hfit.1).2 hfit.2
        exact ⟨devExt1, _, by rw [hrun], h1, h2⟩
      · simp only [hflag, if_false] at hfit ⊢
        obtain ⟨devExt1, outs, hrun, h1, h2⟩ := ih _ hx hy hfit.2
        exact ⟨devExt1, _, by rw [hrun], h1, h2⟩

/-- Witness of `carry_conservation`: the identity pipeline on two batches. -/
theorem carry_conservation_witness :
    ∃ devExt1 outs cx cy,
      callback_run (sample_global identity_modifier) sample_devExt sample_deliveries
          = some (devExt1, outs)
        ∧ devExt1.carry = ⟨F64.fin cx, F64.fin cy⟩
        ∧ (sum_LastX outs : ℚ) + cx
            = (sum_LastX (sample_deliveries.map (fun d => d.packets)) : ℚ)
        ∧ (sum_LastY outs : ℚ) + cy
            = (sum_LastY (sample_deliveries.map (fun d => d.packets)) : ℚ) :=
  carry_conservation (sample_global identity_modifier) (fun _ => rfl) (fun _ _ _ => rfl)
    (fun _ => rfl) sample_devExt rfl sample_deliveries
    (by
      intro d hd
      simp only [sample_deliveries, List.mem_cons, List.mem_singleton, List.not_mem_nil,
        or_false] at hd
      rcases hd with rfl | rfl
      · exact ⟨_, _, rfl, rfl⟩
      · exact ⟨_, _, rfl, rfl⟩)

/-- C2, as the code has it. Carry bound: starting from a zero carry, after
`RawaccelCallback` has handled any sequence of non-empty batches, each under
the configuration of its moment, each axis of the stored carry lies strictly
between -1 and 1, provided every stage result plus carry met along the way, as
the double addition delivers it, was a finite value whose truncation toward
zero fits a 32-bit signed `LONG`. -/
theorem carry_bound_when_fits {α L : Type} (devExt : DEVICE_EXTENSION)
    (hcarry : devExt.carry = zero_carry) (reports : List (Global α L × Delivery))
    (hfit : reports_fit devExt reports = true) :
    ∃ devExt1 outs, report_run devExt reports = some (devExt1, outs)
      ∧ F64.strictlyWithinOne devExt1.carry.x ∧ F64.strictlyWithinOne devExt1.carry.y := by
  refine report_run_within_one reports devExt ?_ ?_ hfit
  · rw [hcarry]; simp [zero_carry, F64.strictlyWithinOne]
  · rw [hcarry]; simp [zero_carry, F64.strictlyWithinOne]

/-- Witness of `carry_bound_when_fits`: two batches under a sensitivity of
1/2, then ten packets `(1, -1)` under a sensitivity of 1/10; the double sums
round, and the run ends with the carry `(1/2 - 2^-53, -(1 - 2^-53))`. -/
theorem carry_bound_when_fits_witness :
    reports_fit sample_devExt sample_reports = true
      ∧ (report_run sample_devExt sample_reports).map (fun r => r.1.carry)
          = some ⟨F64.fin (1 / 2 - 1 / 2 ^ 53), F64.fin (-(1 - 1 / 2 ^ 53))⟩
      ∧ ∃ devExt1 outs,
        report_run sample_devExt sample_reports = some (devExt1, outs)
          ∧ F64.strictlyWithinOne devExt1.carry.x ∧ F64.strictlyWithinOne devExt1.carry.y :=
  ⟨by decide!, by decide!,
   carry_bound_when_fits sample_devExt rfl sample_reports (by decide!)⟩

/-- C2, as stated, fails. With a sensitivity of 2 and a single packet whose
`LastX` is `2^30`, the stage result `2^31` is outside the range of `LONG`, the
conversion does not deliver its truncation, and the stored carry on the x axis
is `2^32`. -/
theorem carry_bound_counterexample :
    sample_devExt.carry = zero_carry
      ∧ ∃ devExt1 outs,
        report_run sample_devExt
            (large_delivery.map (fun d => (sample_global (scaling_modifier 2), d)))
            = some (devExt1, outs)
          ∧ devExt1.carry.x = F64.fin 4294967296
          ∧ ¬ F64.strictlyWithinOne (F64.fin 4294967296) :=
  ⟨rfl, _, _, rfl, by decide!, by decide!⟩

/-- The rounding of the double additions is part of the model: after a carry
of `1 - 2^-31`, a stage result of 2147483647 gives the double sum `2^31`, which
does not fit a `LONG`, although the exact sum would. -/
theorem carried_result_rounds :
    F64.add (F64.fin 2147483647) (F64.fin (1 - 1 / 2 ^ 31)) = F64.fin 2147483648
      ∧ ¬ fits_LONG (F64.add (F64.fin 2147483647) (F64.fin (1 - 1 / 2 ^ 31)))
      ∧ truncate (2147483647 + (1 - 1 / 2 ^ 31)) = 2147483647 := by
  refine ⟨by decide!, by decide!, by decide!⟩

/-! ## The configuration channel -/

theorem RA_READ_ne_RA_WRITE : RA_READ ≠ RA_WRITE := by decide

theorem isnanf_static_cast_float (d : F64) :
    isnanf (static_cast_float d) = true ↔ d = F64.nan := by
  cases d with
  | fin q =>
    simp only [static_cast_float, isnanf]
    split_ifs <;> simp [F64.isnan]
  | nan => simp [static_cast_float, isnanf, F64.isnan]
  | pinf => simp [static_cast_float, isnanf, F64.isnan]
  | ninf => simp [static_cast_float, isnanf, F64.isnan]

theorem lt_zero_not_le (d : F64) (h : F64.lt (F64.fin 0) d = true) :
    ¬ (F64.le d (F64.fin 0) = true ∨ isnanf (static_cast_float d) = true) := by
  rw [isnanf_static_cast_float]
  cases d with
  | fin q =>
    simp only [F64.lt, decide_eq_true_eq] at h
    simp [F64.le, h]
  | nan => simp [F64.lt] at h
  | pinf => simp [F64.le]
  | ninf => simp [F64.lt] at h

theorem not_le_lt_zero (d : F64)
    (h : ¬ (F64.le d (F64.fin 0) = true ∨ isnanf (static_cast_float d) = true)) :
    F64.lt (F64.fin 0) d = true := by
  rw [isnanf_static_cast_float] at h
  cases d with
  | fin q =>
    simp only [F64.le, decide_eq_true_eq, reduceCtorEq, or_false, not_le] at h
    simp [F64.lt, h]
  | nan => simp at h
  | pinf => simp [F64.lt]
  | ninf => simp [F64.le] at h

theorem RawaccelControl_write {α L : Type} (hpp : RawaccelHpp α L) (global : Global α L)
    (Request : ControlRequest α)
    (hcode : Request.IoControlCode = RA_WRITE)
    (hsize : Request.InputBufferLength = hpp.sizeof_settings)
    (hok : NT_SUCCESS Request.RetrieveInputBuffer.1 = true) :
    (RawaccelControl hpp global Request).status = STATUS_SUCCESS
      ∧ (RawaccelControl hpp global Request).global.args
          = (if F64.le Request.RetrieveInputBuffer.2.time_min (F64.fin 0) = true
                ∨ isnanf (static_cast_float Request.RetrieveInputBuffer.2.time_min) = true then
              { Request.RetrieveInputBuffer.2 with time_min := hpp.default_settings.time_min }
            else Request.RetrieveInputBuffer.2) := by
  simp only [RawaccelControl, hcode, hsize, and_self, if_true, hok, not_true_eq_false, if_false]

theorem RawaccelControl_not_write {α L : Type} (hpp : RawaccelHpp α L) (global : Global α L)
    (Request : ControlRequest α)
    (h : ¬ (Request.IoControlCode = RA_WRITE
      ∧ Request.InputBufferLength = hpp.sizeof_settings)) :
    (RawaccelControl hpp global Request).global = global := by
  simp only [RawaccelControl, h, if_false]
  split_ifs <;> rfl

/-- C3. Invalid `time_min` normalisation: a correctly sized write whose buffer
holds the record `R`, with `R.time_min` less than or equal to zero or
not-a-number, is completed with `STATUS_SUCCESS` and leaves the active record
equal to `R` with `time_min` replaced by the default-constructed settings'
`time_min`, every other field as in `R`. -/
theorem invalid_time_min_normalized {α L : Type} (hpp : RawaccelHpp α L)
    (global : Global α L) (Request : ControlRequest α) (R : settings α)
    (hcode : Request.IoControlCode = RA_WRITE)
    (hsize : Request.InputBufferLength = hpp.sizeof_settings)
    (hok : NT_SUCCESS Request.RetrieveInputBuffer.1 = true)
    (hR : Request.RetrieveInputBuffer.2 = R)
    (hinv : F64.le R.time_min (F64.fin 0) = true ∨ R.time_min = F64.nan) :
    (RawaccelControl hpp global Request).status = STATUS_SUCCESS
      ∧ (RawaccelControl hpp global Request).global.args
          = { time_min := hpp.default_settings.time_min, rest := R.rest } := by
  obtain ⟨hs, ha⟩ := RawaccelControl_write hpp global Request hcode hsize hok
  refine ⟨hs, ?_⟩
  rw [ha, hR, if_pos]
  rw [isnanf_static_cast_float]
  exact hinv

/-- Witness of `invalid_time_min_normalized`: a write with `time_min = -1`. -/
theorem invalid_time_min_normalized_witness :
    (RawaccelControl sample_hpp sample_initial
        (write_request { time_min := F64.fin (-1), rest := 3 })).status = STATUS_SUCCESS
      ∧ (RawaccelControl sample_hpp sample_initial
          (write_request { time_min := F64.fin (-1), rest := 3 })).global.args
          = { time_min := F64.fin (1 / 10), rest := 3 } :=
  invalid_time_min_normalized sample_hpp sample_initial
    (write_request { time_min := F64.fin (-1), rest := 3 })
    { time_min := F64.fin (-1), rest := 3 } rfl rfl (by decide) rfl (Or.inl (by decide!))

theorem RawaccelControl_time_min_positive {α L : Type} (hpp : RawaccelHpp α L)
    (hdef : F64.lt (F64.fin 0) hpp.default_settings.time_min = true)
    (global : Global α L) (hg : F64.lt (F64.fin 0) global.args.time_min = true)
    (Request : ControlRequest α) :
    F64.lt (F64.fin 0) (RawaccelControl hpp global Request).global.args.time_min = true := by
  by_cases hw : Request.IoControlCode = RA_WRITE
      ∧ Request.InputBufferLength = hpp.sizeof_settings
  · by_cases hok : NT_SUCCESS Request.RetrieveInputBuffer.1 = true
    · rw [(RawaccelControl_write hpp global Request hw.1 hw.2 hok).2]
      split_ifs with hinv
      · exact hdef
      · exact not_le_lt_zero _ hinv
    · simp only [RawaccelControl, hw, and_self, if_true, hok, not_false_eq_true]
      exact hg
  · rw [RawaccelControl_not_write hpp global Request hw]
    exact hg

theorem control_run_time_min_positive {α L : Type} (hpp : RawaccelHpp α L)
    (hdef : F64.lt (F64.fin 0) hpp.default_settings.time_min = true)
    (requests : List (ControlRequest α)) (global : Global α L)
    (hg : F64.lt (F64.fin 0) global.args.time_min = true) :
    F64.lt (F64.fin 0) (control_run hpp global requests).args.time_min = true := by
  induction requests generalizing global with
  | nil => exact hg
  | cons Request later ih =>
    exact ih _ (RawaccelControl_time_min_positive hpp hdef global hg Request)

theorem lt_zero_not_nan (d : F64) (h : F64.lt (F64.fin 0) d = true) : F64.isnan d = false := by
  cases d <;> simp_all [F64.lt, F64.isnan]

/-- C4, as the code has it. Validated-record invariant: in every state
reachable from the initial state (default settings, whose `time_min` is
greater than zero) by any sequence of requests to `RawaccelControl` with
arbitrary contents, the active record's `time_min` is a number (not
not-a-number) strictly greater than zero; it need not be finite: a correctly
sized write whose `time_min` is plus infinity leaves the active `time_min`
equal to plus infinity. -/
theorem active_time_min_positive {α L : Type} (hpp : RawaccelHpp α L)
    (default_modifier : mouse_modifier) (tick_interval : milliseconds) (lookups : L)
    (hdef : F64.lt (F64.fin 0) hpp.default_settings.time_min = true)
    (requests : List (ControlRequest α)) :
    (F64.lt (F64.fin 0)
        (control_run hpp (initial_global hpp default_modifier tick_interval lookups)
          requests).args.time_min = true
      ∧ F64.isnan
          (control_run hpp (initial_global hpp default_modifier tick_interval lookups)
            requests).args.time_min = false)
      ∧ ∀ Request : ControlRequest α,
          Request.IoControlCode = RA_WRITE →
          Request.InputBufferLength = hpp.sizeof_settings →
          NT_SUCCESS Request.RetrieveInputBuffer.1 = true →
          Request.RetrieveInputBuffer.2.time_min = F64.pinf →
          (control_run hpp (initial_global hpp default_modifier tick_interval lookups)
            (requests ++ [Request])).args.time_min = F64.pinf := by
  have hpos := control_run_time_min_positive hpp hdef requests
    (initial_global hpp default_modifier tick_interval lookups) hdef
  refine ⟨⟨hpos, lt_zero_not_nan _ hpos⟩, ?_⟩
  intro Request hcode hsize hok hinf
  have happ : ∀ (rs : List (ControlRequest α)) (g : Global α L),
      control_run hpp g (rs ++ [Request])
        = (RawaccelControl hpp (control_run hpp g rs) Request).global := by
    intro rs
    induction rs with
    | nil => intro g; rfl
    | cons r later ih => intro g; exact ih _
  have hvalid : ¬ (F64.le Request.RetrieveInputBuffer.2.time_min (F64.fin 0) = true
      ∨ isnanf (static_cast_float Request.RetrieveInputBuffer.2.time_min) = true) := by
    rw [hinf]
    simp [F64.le, static_cast_float, isnanf, F64.isnan]
  rw [happ, (RawaccelControl_write hpp _ Request hcode hsize hok).2, if_neg hvalid]
  exact hinf

/-- Witness of `active_time_min_positive`: from the initial state, a write
with `time_min = -1`, a read, then a write with `time_min` plus infinity. -/
theorem active_time_min_positive_witness :
    F64.lt (F64.fin 0) sample_hpp.default_settings.time_min = true
      ∧ F64.lt (F64.fin 0)
          (control_run sample_hpp sample_initial
            [write_request { time_min := F64.fin (-1), rest := 3 }, read_request]).args.time_min
          = true
      ∧ (control_run sample_hpp sample_initial
          ([write_request { time_min := F64.fin (-1), rest := 3 }, read_request]
            ++ [write_request { time_min := F64.pinf, rest := 2 }])).args.time_min
          = F64.pinf :=
  ⟨by decide!,
   (active_time_min_positive sample_hpp identity_modifier (F64.fin (1 / 10000)) ()
      (by decide!) [write_request { time_min := F64.fin (-1), rest := 3 }, read_request]).1.1,
   (active_time_min_positive sample_hpp identity_modifier (F64.fin (1 / 10000)) ()
      (by decide!) [write_request { time_min := F64.fin (-1), rest := 3 }, read_request]).2
      (write_request { time_min := F64.pinf, rest := 2 }) rfl rfl (by decide) rfl⟩

/-- C4, as stated, fails. From the initial state, whose `time_min` is the
finite positive default, a correctly sized write whose `time_min` is plus
infinity is completed with success and leaves an active `time_min` that is not
finite and is not the default. -/
theorem active_time_min_counterexample :
    F64.isfinite sample_initial.args.time_min = true
      ∧ F64.lt (F64.fin 0) sample_initial.args.time_min = true
      ∧ (RawaccelControl sample_hpp sample_initial
          (write_request { time_min := F64.pinf, rest := 2 })).status = STATUS_SUCCESS
      ∧ F64.isfinite
          (control_run sample_hpp sample_initial
            [write_request { time_min := F64.pinf, rest := 2 }]).args.time_min = false
      ∧ (control_run sample_hpp sample_initial
            [write_request { time_min := F64.pinf, rest := 2 }]).args.time_min
          ≠ sample_hpp.default_settings.time_min := by
  refine ⟨by decide!, by decide!, by decide!, by decide!, by decide!⟩

theorem control_run_not_write {α L : Type} (hpp : RawaccelHpp α L)
    (requests : List (ControlRequest α)) (global : Global α L)
    (h : ∀ q ∈ requests,
      ¬ (q.IoControlCode = RA_WRITE ∧ q.InputBufferLength = hpp.sizeof_settings)) :
    control_run hpp global requests = global := by
  induction requests generalizing global with
  | nil => rfl
  | cons q later ih =>
    simp only [control_run]
    rw [RawaccelControl_not_write hpp global q (h q (List.mem_cons_self _ _))]
    exact ih global (fun q1 h1 => h q1 (List.mem_cons_of_mem _ h1))

theorem RawaccelControl_read {α L : Type} (hpp : RawaccelHpp α L) (global : Global α L)
    (Request : ControlRequest α)
    (hcode : Request.IoControlCode = RA_READ)
    (hsize : Request.OutputBufferLength = hpp.sizeof_settings)
    (hok : NT_SUCCESS Request.RetrieveOutputBuffer = true) :
    (RawaccelControl hpp global Request).status = STATUS_SUCCESS
      ∧ (RawaccelControl hpp global Request).output = some global.args := by
  simp [RawaccelControl, hcode, hsize, hok, RA_READ_ne_RA_WRITE]

/-- C5, as the code has it. Configuration round trip: a correctly sized write
of the record `R`, followed by any requests that are not correctly sized
writes and then by a correctly sized read, both with their buffers delivered:
the write and the read are completed with `STATUS_SUCCESS` and the read
returns `R` with `time_min` replaced by the default when `R.time_min` is less
than or equal to zero or not-a-number, and exactly `R` otherwise; in
particular exactly `R` whenever `R.time_min` is greater than zero, plus
infinity included. -/
theorem config_round_trip {α L : Type} (hpp : RawaccelHpp α L) (global : Global α L)
    (Write Read : ControlRequest α) (between : List (ControlRequest α)) (R : settings α)
    (hwcode : Write.IoControlCode = RA_WRITE)
    (hwsize : Write.InputBufferLength = hpp.sizeof_settings)
    (hwok : NT_SUCCESS Write.RetrieveInputBuffer.1 = true)
    (hR : Write.RetrieveInputBuffer.2 = R)
    (hbetween : ∀ q ∈ between,
      ¬ (q.IoControlCode = RA_WRITE ∧ q.InputBufferLength = hpp.sizeof_settings))
    (hrcode : Read.IoControlCode = RA_READ)
    (hrsize : Read.OutputBufferLength = hpp.sizeof_settings)
    (hrok : NT_SUCCESS Read.RetrieveOutputBuffer = true) :
    (RawaccelControl hpp global Write).status = STATUS_SUCCESS
      ∧ (RawaccelControl hpp
          (control_run hpp (RawaccelControl hpp global Write).global between) Read).status
          = STATUS_SUCCESS
      ∧ (RawaccelControl hpp
          (control_run hpp (RawaccelControl hpp global Write).global between) Read).output
          = some (if F64.le R.time_min (F64.fin 0) = true ∨ R.time_min = F64.nan then
              { time_min := hpp.default_settings.time_min, rest := R.rest } else R)
      ∧ (F64.lt (F64.fin 0) R.time_min = true →
          (RawaccelControl hpp
            (control_run hpp (RawaccelControl hpp global Write).global between) Read).output
            = some R) := by
  obtain ⟨hs, ha⟩ := RawaccelControl_write hpp global Write hwcode hwsize hwok
  rw [control_run_not_write hpp between _ hbetween]
  obtain ⟨hrs, hro⟩ :=
    RawaccelControl_read hpp (RawaccelControl hpp global Write).global Read hrcode hrsize hrok
  rw [hR] at ha
  simp only [isnanf_static_cast_float] at ha
  refine ⟨hs, hrs, ?_, ?_⟩
  · rw [hro, ha]
  · intro hpos
    have hvalid := lt_zero_not_le R.time_min hpos
    rw [isnanf_static_cast_float] at hvalid
    rw [hro, ha, if_neg hvalid]

/-- Witness of `config_round_trip`: a write with `time_min = 5`, a wrongly
sized write, a read. -/
theorem config_round_trip_witness :
    (RawaccelControl sample_hpp
        (control_run sample_hpp
          (RawaccelControl sample_hpp sample_initial
            (write_request { time_min := F64.fin 5, rest := 3 })).global
          [{ write_request { time_min := F64.nan, rest := 7 } with InputBufferLength := 63 }])
        read_request).output
      = some { time_min := F64.fin 5, rest := 3 } :=
  (config_round_trip sample_hpp sample_initial
    (write_request { time_min := F64.fin 5, rest := 3 }) read_request
    [{ write_request { time_min := F64.nan, rest := 7 } with InputBufferLength := 63 }]
    { time_min := F64.fin 5, rest := 3 } rfl rfl (by decide) rfl
    (by
      intro q hq
      rw [List.mem_singleton] at hq
      subst hq
      intro h
      exact absurd h.2 (by decide))
    rfl rfl (by decide)).2.2.2 (by decide!)

/-- C5, as stated, fails. A correctly sized write of a record whose
`time_min` is plus infinity followed by a correctly sized read, both
successful, returns the record as written, which is not the record normalised
as the spec words it (non-finite `time_min` replaced by the default). -/
theorem config_round_trip_counterexample :
    (RawaccelControl sample_hpp sample_initial
        (write_request { time_min := F64.pinf, rest := 2 })).status = STATUS_SUCCESS
      ∧ (RawaccelControl sample_hpp
          (RawaccelControl sample_hpp sample_initial
            (write_request { time_min := F64.pinf, rest := 2 })).global read_request).status
          = STATUS_SUCCESS
      ∧ (RawaccelControl sample_hpp
          (RawaccelControl sample_hpp sample_initial
            (write_request { time_min := F64.pinf, rest := 2 })).global read_request).output
          = some { time_min := F64.pinf, rest := 2 }
      ∧ spec_normalize sample_hpp.default_settings { time_min := F64.pinf, rest := 2 }
          = { time_min := F64.fin (1 / 10), rest := 2 }
      ∧ (RawaccelControl sample_hpp
          (RawaccelControl sample_hpp sample_initial
            (write_request { time_min := F64.pinf, rest := 2 })).global read_request).output
          ≠ some (spec_normalize sample_hpp.default_settings
              { time_min := F64.pinf, rest := 2 }) := by
  refine ⟨by decide!, by decide!, by decide!, by decide!, by decide!⟩

/-- C9. Malformed request size: a configuration write whose input length
differs from the size of the settings record, and a configuration read whose
output length differs from it, is completed with `STATUS_INVALID_BUFFER_SIZE`,
which is neither `STATUS_SUCCESS` nor the status `STATUS_MESSAGE_LOST` of a
failed buffer retrieval; nothing is copied out and the process-wide state
(active record, pipeline, lookup tables, tick interval) is left as it was. -/
theorem malformed_request_size {α L : Type} (hpp : RawaccelHpp α L) (global : Global α L)
    (Request : ControlRequest α)
    (hbad :
      (Request.IoControlCode = RA_WRITE ∧ Request.InputBufferLength ≠ hpp.sizeof_settings)
        ∨ (Request.IoControlCode = RA_READ
            ∧ Request.OutputBufferLength ≠ hpp.sizeof_settings)) :
    (RawaccelControl hpp global Request).status = STATUS_INVALID_BUFFER_SIZE
      ∧ STATUS_INVALID_BUFFER_SIZE ≠ STATUS_SUCCESS
      ∧ STATUS_INVALID_BUFFER_SIZE ≠ STATUS_MESSAGE_LOST
      ∧ NT_SUCCESS STATUS_INVALID_BUFFER_SIZE = false
      ∧ (RawaccelControl hpp global Request).output = none
      ∧ (RawaccelControl hpp global Request).global = global
      ∧ (RawaccelControl hpp global Request).global.args = global.args
      ∧ (RawaccelControl hpp global Request).global.modifier = global.modifier
      ∧ (RawaccelControl hpp global Request).global.lookups = global.lookups
      ∧ (RawaccelControl hpp global Request).global.tick_interval = global.tick_interval := by
  have hres : RawaccelControl hpp global Request
      = { global := global, status := STATUS_INVALID_BUFFER_SIZE, output := none } := by
    rcases hbad with ⟨hc, hl⟩ | ⟨hc, hl⟩
    · simp [RawaccelControl, hc, hl, Ne.symm RA_READ_ne_RA_WRITE]
    · simp [RawaccelControl, hc, hl, RA_READ_ne_RA_WRITE]
  rw [hres]
  exact ⟨rfl, by decide, by decide, by decide, rfl, rfl, rfl, rfl, rfl, rfl⟩

/-- Witness of `malformed_request_size`: a write one byte short. -/
theorem malformed_request_size_witness :
    (RawaccelControl sample_hpp sample_initial
        { write_request { time_min := F64.fin 5, rest := 3 } with
          InputBufferLength := 63 }).status = STATUS_INVALID_BUFFER_SIZE
      ∧ (RawaccelControl sample_hpp sample_initial
        { write_request { time_min := F64.fin 5, rest := 3 } with
          InputBufferLength := 63 }).global = sample_initial :=
  ⟨(malformed_request_size sample_hpp sample_initial
      { write_request { time_min := F64.fin 5, rest := 3 } with InputBufferLength := 63 }
      (Or.inl ⟨rfl, by decide⟩)).1,
   (malformed_request_size sample_hpp sample_initial
      { write_request { time_min := F64.fin 5, rest := 3 } with InputBufferLength := 63 }
      (Or.inl ⟨rfl, by decide⟩)).2.2.2.2.2.1⟩

/-! ## Time clamp -/

theorem clampsd_within (v lo : F64) (hlo : F64.le lo (F64.fin 100) = true)
    (hv : F64.isnan v = false) :
    F64.le lo (clampsd v lo (F64.fin 100)) = true
      ∧ F64.le (clampsd v lo (F64.fin 100)) (F64.fin 100) = true
      ∧ (F64.lt v lo = true → clampsd v lo (F64.fin 100) = lo)
      ∧ (F64.lt (F64.fin 100) v = true → clampsd v lo (F64.fin 100) = F64.fin 100)
      ∧ (F64.lt v lo = false → F64.lt (F64.fin 100) v = false →
          clampsd v lo (F64.fin 100) = v) := by
  cases v with
  | nan => simp [F64.isnan] at hv
  | pinf =>
    cases lo <;> simp_all [clampsd, F64.lt, F64.le]
  | ninf =>
    cases lo <;> simp_all [clampsd, F64.lt, F64.le]
  | fin a =>
    cases lo with
    | nan => simp [F64.le] at hlo
    | pinf => simp [F64.le] at hlo
    | ninf =>
      by_cases h : (100 : ℚ) < a
      · simp [clampsd, F64.lt, F64.le, h]
      · simp [clampsd, F64.lt, F64.le, h, not_lt.mp h]
    | fin b =>
      simp only [F64.le, decide_eq_true_eq] at hlo
      by_cases h1 : a < b
      · have h3 : ¬ (100 : ℚ) < a := by linarith
        simp [clampsd, F64.lt, F64.le, h1, hlo, h3]
      · by_cases h2 : (100 : ℚ) < a
        · simp [clampsd, F64.lt, F64.le, h1, h2, hlo]
        · simp [clampsd, F64.lt, F64.le, h1, h2, not_lt.mp h1, not_lt.mp h2]

/-- C6, as the code has it. Time clamp: for every `time_min` not above 100,
every tick interval and every counter difference whose product `elapsed_ms`
is a number, the time that `time_supplier` hands to the acceleration stage is
`elapsed_ms` clamped to the interval from `time_min` to 100: it is at least
`time_min` and at most 100, equals `time_min` when `elapsed_ms < time_min`,
equals 100 when `elapsed_ms > 100`, and equals `elapsed_ms` otherwise; the
supplier stores the counter reading in the device context. -/
theorem time_clamp (time_min tick_interval : milliseconds) (now counter : counter_t)
    (hmin : F64.le time_min (F64.fin 100) = true)
    (hnum : F64.isnan (F64.mul (F64.ofInt (now - counter)) tick_interval) = false) :
    F64.le time_min (time_supplier tick_interval time_min now counter).1 = true
      ∧ F64.le (time_supplier tick_interval time_min now counter).1 (F64.fin 100) = true
      ∧ (F64.lt (F64.mul (F64.ofInt (now - counter)) tick_interval) time_min = true →
          (time_supplier tick_interval time_min now counter).1 = time_min)
      ∧ (F64.lt (F64.fin 100) (F64.mul (F64.ofInt (now - counter)) tick_interval) = true →
          (time_supplier tick_interval time_min now counter).1 = F64.fin 100)
      ∧ (F64.lt (F64.mul (F64.ofInt (now - counter)) tick_interval) time_min = false →
          F64.lt (F64.fin 100) (F64.mul (F64.ofInt (now - counter)) tick_interval) = false →
          (time_supplier tick_interval time_min now counter).1
            = F64.mul (F64.ofInt (now - counter)) tick_interval)
      ∧ (time_supplier tick_interval time_min now counter).2 = now :=
  ⟨(clampsd_within _ time_min hmin hnum).1, (clampsd_within _ time_min hmin hnum).2.1,
   (clampsd_within _ time_min hmin hnum).2.2.1, (clampsd_within _ time_min hmin hnum).2.2.2.1,
   (clampsd_within _ time_min hmin hnum).2.2.2.2, rfl⟩

/-- Witness of `time_clamp`: with `time_min = 5` and a counter of 10 MHz, an
elapsed time of 1 ms (10000 ticks) is handed on as 5 ms, and an elapsed time
of 500 ms (5000000 ticks) as 100 ms. -/
theorem time_clamp_witness :
    (time_supplier (F64.fin (1 / 10000)) (F64.fin 5) 10000 0).1 = F64.fin 5
      ∧ (time_supplier (F64.fin (1 / 10000)) (F64.fin 5) 5000000 0).1 = F64.fin 100 :=
  ⟨(time_clamp (F64.fin 5) (F64.fin (1 / 10000)) 10000 0 (by decide!) (by decide!)).2.2.1
      (by decide!),
   (time_clamp (F64.fin 5) (F64.fin (1 / 10000)) 5000000 0 (by decide!) (by decide!)).2.2.2.1
      (by decide!)⟩

/-- C6, as stated, fails. A write with `time_min = 200` is accepted and makes
200 the active `time_min`; with an elapsed time of 1 ms the time handed to the
acceleration stage is not both at least `time_min` and at most 100, and no
value could be. -/
theorem time_clamp_counterexample :
    (control_run sample_hpp sample_initial
        [write_request { time_min := F64.fin 200, rest := 1 }]).args.time_min = F64.fin 200
      ∧ F64.mul (F64.ofInt (10000 - 0)) (F64.fin (1 / 10000)) = F64.fin 1
      ∧ ¬ (F64.le (F64.fin 200)
              (time_supplier (F64.fin (1 / 10000)) (F64.fin 200) 10000 0).1 = true
            ∧ F64.le (time_supplier (F64.fin (1 / 10000)) (F64.fin 200) 10000 0).1
                (F64.fin 100) = true)
      ∧ ∀ t : F64, ¬ (F64.le (F64.fin 200) t = true ∧ F64.le t (F64.fin 100) = true) := by
  refine ⟨by decide!, by decide!, by decide!, ?_⟩
  intro t
  cases t with
  | fin q =>
    simp only [F64.le, decide_eq_true_eq, not_and, not_le]
    intro h
    linarith
  | nan => simp [F64.le]
  | pinf => simp [F64.le]
  | ninf => simp [F64.le]

/-! ## Batch-size policy -/

theorem loop_body_without_accel {α L : Type} (g : Global α L) (now : counter_t)
    (carry : vec2d) (counter : counter_t) (it : MOUSE_INPUT_DATA) :
    loop_body g now false carry counter it
      = ((spec_sample_without_accel g.modifier carry it).1,
         (spec_sample_without_accel g.modifier carry it).2, counter) := by
  simp [loop_body, stage_result, spec_sample_without_accel, spec_rewrite, spec_carry_axis]

theorem packet_loop_without_accel {α L : Type} (g : Global α L) (now : counter_t)
    (packets : List MOUSE_INPUT_DATA) (carry : vec2d) (counter : counter_t)
    (done : List MOUSE_INPUT_DATA) :
    packets.foldl
        (fun done it => (done.1 ++ [(spec_sample_without_accel g.modifier done.2 it).1],
          (spec_sample_without_accel g.modifier done.2 it).2))
        (done, carry)
      = (done ++ (packet_loop g now false carry counter packets).1,
         (packet_loop g now false carry counter packets).2.1)
      ∧ (packet_loop g now false carry counter packets).2.2 = counter := by
  induction packets generalizing carry done with
  | nil => simp [packet_loop]
  | cons it rest ih =>
    simp only [List.foldl_cons, packet_loop, loop_body_without_accel]
    obtain ⟨h1, h2⟩ := ih (spec_sample_without_accel g.modifier carry it).2
      (done ++ [(spec_sample_without_accel g.modifier carry it).1])
    rw [h1]
    exact ⟨by simp, h2⟩

/-- C7. Batch-size policy: on a relative batch with more than one sample
`RawaccelCallback` writes what rotation, then sensitivity, then carry
accumulation give for the samples in order, whatever the acceleration stage
is, and leaves the device's counter unchanged; on a batch of exactly one
sample the acceleration stage is applied between rotation and sensitivity, and
the counter becomes what the acceleration stage leaves. -/
theorem batch_size_policy {α L : Type} (g : Global α L) (now : counter_t)
    (devExt : DEVICE_EXTENSION) (InputDataStart InputDataConsumed : Nat)
    (first second : MOUSE_INPUT_DATA) (rest : List MOUSE_INPUT_DATA)
    (hrel : first.Flags &&& MOUSE_MOVE_ABSOLUTE = 0) :
    (∃ r,
      RawaccelCallback g now devExt InputDataStart (first :: second :: rest) InputDataConsumed
          = some r
        ∧ r.packets
            = (spec_batch_without_accel g.modifier devExt.carry (first :: second :: rest)).1
        ∧ r.devExt.carry
            = (spec_batch_without_accel g.modifier devExt.carry (first :: second :: rest)).2
        ∧ r.devExt.counter = devExt.counter)
      ∧ ∃ r,
        RawaccelCallback g now devExt InputDataStart [first] InputDataConsumed = some r
          ∧ r.packets
              = [(spec_rewrite
                  (g.modifier.apply_sensitivity
                    (g.modifier.apply_acceleration
                      (g.modifier.apply_rotation
                        ⟨static_cast_double first.LastX, static_cast_double first.LastY⟩)
                      (time_supplier g.tick_interval g.args.time_min now) devExt.counter).1)
                  devExt.carry first).1]
          ∧ r.devExt.carry
              = (spec_rewrite
                  (g.modifier.apply_sensitivity
                    (g.modifier.apply_acceleration
                      (g.modifier.apply_rotation
                        ⟨static_cast_double first.LastX, static_cast_double first.LastY⟩)
                      (time_supplier g.tick_interval g.args.time_min now) devExt.counter).1)
                  devExt.carry first).2
          ∧ r.devExt.counter
              = (g.modifier.apply_acceleration
                  (g.modifier.apply_rotation
                    ⟨static_cast_double first.LastX, static_cast_double first.LastY⟩)
                  (time_supplier g.tick_interval g.args.time_min now) devExt.counter).2 := by
  constructor
  · obtain ⟨h1, h2⟩ := packet_loop_without_accel g now (first :: second :: rest)
      devExt.carry devExt.counter []
    have he : decide (InputDataStart + (first :: second :: rest).length - InputDataStart = 1)
        = false := by simp
    refine ⟨_, rfl, ?_, ?_, ?_⟩
    · simp only [hrel, if_true, he, spec_batch_without_accel, h1, List.nil_append]
    · simp only [hrel, if_true, he, spec_batch_without_accel, h1]
    · simp only [hrel, if_true, he, h2]
  · refine ⟨_, rfl, ?_, ?_, ?_⟩ <;>
      simp [hrel, packet_loop, loop_body, stage_result, spec_rewrite, spec_carry_axis]

/-- Witness of `batch_size_policy`: with an acceleration stage that doubles
the movement, a batch of two packets is written back unchanged and leaves the
counter at 0, and a batch of one packet is written back doubled and leaves the
counter at the reading 5000. -/
theorem batch_size_policy_witness :
    (∃ r,
      RawaccelCallback (sample_global doubling_accel_modifier) 5000 sample_devExt 16
          [relative_packet ⟨3, by decide⟩ ⟨-1, by decide⟩,
            relative_packet ⟨-7, by decide⟩ ⟨2, by decide⟩] 8 = some r
        ∧ r.packets
            = (spec_batch_without_accel doubling_accel_modifier sample_devExt.carry
                [relative_packet ⟨3, by decide⟩ ⟨-1, by decide⟩,
                  relative_packet ⟨-7, by decide⟩ ⟨2, by decide⟩]).1
        ∧ r.devExt.carry
            = (spec_batch_without_accel doubling_accel_modifier sample_devExt.carry
                [relative_packet ⟨3, by decide⟩ ⟨-1, by decide⟩,
                  relative_packet ⟨-7, by decide⟩ ⟨2, by decide⟩]).2
        ∧ r.devExt.counter = 0)
      ∧ (RawaccelCallback (sample_global doubling_accel_modifier) 5000 sample_devExt 16
          [relative_packet ⟨3, by decide⟩ ⟨-1, by decide⟩,
            relative_packet ⟨-7, by decide⟩ ⟨2, by decide⟩] 8).map
            (fun r => (r.packets, r.devExt.counter))
          = some ([relative_packet ⟨3, by decide⟩ ⟨-1, by decide⟩,
              relative_packet ⟨-7, by decide⟩ ⟨2, by decide⟩], 0)
      ∧ (RawaccelCallback (sample_global doubling_accel_modifier) 5000 sample_devExt 16
          [relative_packet ⟨3, by decide⟩ ⟨-1, by decide⟩] 8).map
            (fun r => (r.packets, r.devExt.counter))
          = some ([relative_packet ⟨6, by decide⟩ ⟨-2, by decide⟩], 5000) :=
  ⟨(batch_size_policy (sample_global doubling_accel_modifier) 5000 sample_devExt 16 8
      (relative_packet ⟨3, by decide⟩ ⟨-1, by decide⟩)
      (relative_packet ⟨-7, by decide⟩ ⟨2, by decide⟩) [] (by decide)).1,
   by decide!, by decide!⟩

/-! ## Batch frame -/

theorem loop_body_same_but_displacement {α L : Type} (g : Global α L) (now : counter_t)
    (e : Bool) (carry : vec2d) (counter : counter_t) (it : MOUSE_INPUT_DATA) :
    same_but_displacement it (loop_body g now e carry counter it).1 :=
  ⟨rfl, rfl, rfl, rfl, rfl⟩

theorem packet_loop_same_but_displacement {α L : Type} (g : Global α L) (now : counter_t)
    (e : Bool) (packets : List MOUSE_INPUT_DATA) (carry : vec2d) (counter : counter_t) :
    List.Forall₂ same_but_displacement packets (packet_loop g now e carry counter packets).1 := by
  induction packets generalizing carry counter with
  | nil => exact List.Forall₂.nil
  | cons it rest ih =>
    exact List.Forall₂.cons (loop_body_same_but_displacement g now e carry counter it) (ih _ _)

theorem packet_loop_in_order {α L : Type} (g : Global α L) (now : counter_t) (e : Bool)
    (packets : List MOUSE_INPUT_DATA) (carry : vec2d) (counter : counter_t) (i : Nat) :
    (packet_loop g now e carry counter packets).1[i]?
      = (packets[i]?).map (fun it =>
          (loop_body g now e
            (packet_loop g now e carry counter (packets.take i)).2.1
            (packet_loop g now e carry counter (packets.take i)).2.2 it).1) := by
  induction packets generalizing carry counter i with
  | nil => simp [packet_loop]
  | cons it rest ih =>
    cases i with
    | zero => simp [packet_loop]
    | succ j =>
      simp only [packet_loop, List.getElem?_cons_succ, List.take_succ_cons]
      exact ih _ _ j

theorem same_but_displacement_refl (packets : List MOUSE_INPUT_DATA) :
    List.Forall₂ same_but_displacement packets packets := by
  induction packets with
  | nil => exact List.Forall₂.nil
  | cons it rest ih => exact List.Forall₂.cons ⟨rfl, rfl, rfl, rfl, rfl⟩ ih

/-- C10. Batch frame: on every non-empty batch `RawaccelCallback` returns; the
packets it leaves correspond one to one, in order, to the packets it received
and agree with them in every field other than `LastX` and `LastY`; when the
batch is rewritten, packet number `i` is the loop body applied to packet
number `i` received, with the carry and counter left by the packets before it;
of the device context only carry and counter can differ; and the class service
recorded at connect is called with the recorded device object and with the
batch start, batch end and consumed-count pointer received. -/
theorem batch_frame {α L : Type} (g : Global α L) (now : counter_t)
    (devExt : DEVICE_EXTENSION) (InputDataStart InputDataConsumed : Nat)
    (first : MOUSE_INPUT_DATA) (rest : List MOUSE_INPUT_DATA) :
    ∃ r,
      RawaccelCallback g now devExt InputDataStart (first :: rest) InputDataConsumed = some r
        ∧ r.packets.length = (first :: rest).length
        ∧ List.Forall₂ same_but_displacement (first :: rest) r.packets
        ∧ (first.Flags &&& MOUSE_MOVE_ABSOLUTE = 0 → ∀ i : Nat,
            r.packets[i]?
              = ((first :: rest)[i]?).map (fun it =>
                  (loop_body g now (decide ((first :: rest).length = 1))
                    (packet_loop g now (decide ((first :: rest).length = 1)) devExt.carry
                      devExt.counter ((first :: rest).take i)).2.1
                    (packet_loop g now (decide ((first :: rest).length = 1)) devExt.carry
                      devExt.counter ((first :: rest).take i)).2.2 it).1))
        ∧ r.devExt.UpperConnectData = devExt.UpperConnectData
        ∧ r.call
            = { ClassService := devExt.UpperConnectData.ClassService
                ClassDeviceObject := devExt.UpperConnectData.ClassDeviceObject
                InputDataStart := InputDataStart
                InputDataEnd := InputDataStart + (first :: rest).length
                InputDataConsumed := InputDataConsumed } := by
  have hfor : ∀ r, RawaccelCallback g now devExt InputDataStart (first :: rest)
      InputDataConsumed = some r → List.Forall₂ same_but_displacement (first :: rest) r.packets := by
    intro r hr
    simp only [RawaccelCallback, Option.some.injEq] at hr
    subst hr
    by_cases hflag : first.Flags &&& MOUSE_MOVE_ABSOLUTE = 0
    · simp only [hflag, if_true]
      exact packet_loop_same_but_displacement g now _ _ _ _
    · simp only [hflag, if_false]
      exact same_but_displacement_refl _
  refine ⟨_, rfl, ?_, hfor _ rfl, ?_, ?_, ?_⟩
  · exact (List.Forall₂.length_eq (hfor _ rfl)).symm
  · intro hflag i
    simp only [hflag, if_true, List.length_cons, add_tsub_cancel_left]
    exact packet_loop_in_order g now _ (first :: rest) devExt.carry devExt.counter i
  · by_cases hflag : first.Flags &&& MOUSE_MOVE_ABSOLUTE = 0 <;> simp [hflag]
  · by_cases hflag : first.Flags &&& MOUSE_MOVE_ABSOLUTE = 0 <;> simp [hflag]

/-! ## Connect exclusivity -/

theorem EvtIoInternalDeviceControl_connected (DeviceObject Callback : Nat)
    (devExt : DEVICE_EXTENSION) (Request : InternalRequest)
    (hconn : devExt.UpperConnectData.ClassService ≠ NULL) :
    (EvtIoInternalDeviceControl DeviceObject Callback devExt Request).devExt = devExt := by
  unfold EvtIoInternalDeviceControl
  by_cases hc : Request.IoControlCode = IOCTL_INTERNAL_MOUSE_CONNECT
  · simp only [hc, if_true, hconn, ne_eq, not_false_eq_true]
    split_ifs <;> rfl
  · by_cases hd : Request.IoControlCode = IOCTL_INTERNAL_MOUSE_DISCONNECT
    · simp only [hc, if_false, hd, if_true]
      split_ifs <;> rfl
    · simp only [hc, if_false, hd]
      split_ifs <;> rfl

theorem RawaccelCallback_UpperConnectData {α L : Type} (g : Global α L) (now : counter_t)
    (devExt : DEVICE_EXTENSION) (InputDataStart InputDataConsumed : Nat)
    (packets : List MOUSE_INPUT_DATA) (r : CallbackResult)
    (h : RawaccelCallback g now devExt InputDataStart packets InputDataConsumed = some r) :
    r.devExt.UpperConnectData = devExt.UpperConnectData := by
  cases packets with
  | nil => simp [RawaccelCallback] at h
  | cons first rest =>
    simp only [RawaccelCallback, Option.some.injEq] at h
    subst h
    by_cases hflag : first.Flags &&& MOUSE_MOVE_ABSOLUTE = 0 <;> simp [hflag]

theorem stream_step_UpperConnectData {α L : Type} (DeviceObject Callback : Nat)
    (devExt : DEVICE_EXTENSION) (event : StreamEvent α L)
    (hconn : devExt.UpperConnectData.ClassService ≠ NULL) :
    (stream_step DeviceObject Callback devExt event).UpperConnectData
      = devExt.UpperConnectData := by
  cases event with
  | request Request =>
    simp only [stream_step]
    rw [EvtIoInternalDeviceControl_connected DeviceObject Callback devExt Request hconn]
  | report g d =>
    simp only [stream_step]
    cases hr : RawaccelCallback g d.now devExt d.InputDataStart d.packets d.InputDataConsumed with
    | none => rfl
    | some r => exact RawaccelCallback_UpperConnectData g d.now devExt _ _ _ r hr

theorem stream_run_UpperConnectData {α L : Type} (DeviceObject Callback : Nat)
    (events : List (StreamEvent α L)) (devExt : DEVICE_EXTENSION)
    (hconn : devExt.UpperConnectData.ClassService ≠ NULL) :
    (stream_run DeviceObject Callback devExt events).UpperConnectData
      = devExt.UpperConnectData := by
  induction events generalizing devExt with
  | nil => rfl
  | cons event later ih =>
    have hstep := stream_step_UpperConnectData DeviceObject Callback devExt event hconn
    have := ih (stream_step DeviceObject Callback devExt event) (by rw [hstep]; exact hconn)
    simp only [stream_run, List.foldl_cons] at this ⊢
    rw [this, hstep]

theorem connect_sent_stores (DeviceObject Callback : Nat) (devExt : DEVICE_EXTENSION)
    (Request : InternalRequest)
    (hcode : Request.IoControlCode = IOCTL_INTERNAL_MOUSE_CONNECT)
    (hsent : (EvtIoInternalDeviceControl DeviceObject Callback devExt Request).disposition
      = Disposition.sent) :
    (EvtIoInternalDeviceControl DeviceObject Callback devExt Request).devExt
      = { counter := 0, carry := zero_carry,
          UpperConnectData := Request.RetrieveInputBuffer.2 } := by
  unfold EvtIoInternalDeviceControl at hsent ⊢
  by_cases hconn : devExt.UpperConnectData.ClassService ≠ NULL
  · simp [hcode, hconn, STATUS_SHARING_VIOLATION, NT_SUCCESS] at hsent
  · by_cases hok : NT_SUCCESS Request.RetrieveInputBuffer.1 = true
    · simp [hcode, hconn, hok, zero_carry]
    · simp [hcode, hconn, hok] at hsent

/-- The guard of the connect handler at work: when a connect request is
accepted by `EvtIoInternalDeviceControl` (sent on to the lower driver) with
connect data whose class service pointer is not null, then after any further
events on the stream (requests of any kind, batches of packets) every later
connect request is completed with `STATUS_SHARING_VIOLATION` and leaves the
device context (forwarding target, carry, counter) exactly as it was before
it; the recorded forwarding target is still the one of the first connect. -/
theorem connect_exclusive {α L : Type} (DeviceObject Callback : Nat)
    (devExt : DEVICE_EXTENSION) (First Second : InternalRequest)
    (events : List (StreamEvent α L))
    (hfirst : First.IoControlCode = IOCTL_INTERNAL_MOUSE_CONNECT)
    (hsent : (EvtIoInternalDeviceControl DeviceObject Callback devExt First).disposition
      = Disposition.sent)
    (hservice : First.RetrieveInputBuffer.2.ClassService ≠ NULL)
    (hsecond : Second.IoControlCode = IOCTL_INTERNAL_MOUSE_CONNECT) :
    (EvtIoInternalDeviceControl DeviceObject Callback
        (stream_run DeviceObject Callback
          (EvtIoInternalDeviceControl DeviceObject Callback devExt First).devExt events)
        Second).disposition = Disposition.completed STATUS_SHARING_VIOLATION
      ∧ (EvtIoInternalDeviceControl DeviceObject Callback
          (stream_run DeviceObject Callback
            (EvtIoInternalDeviceControl DeviceObject Callback devExt First).devExt events)
          Second).devExt
          = stream_run DeviceObject Callback
              (EvtIoInternalDeviceControl DeviceObject Callback devExt First).devExt events
      ∧ (stream_run DeviceObject Callback
          (EvtIoInternalDeviceControl DeviceObject Callback devExt First).devExt
          events).UpperConnectData = First.RetrieveInputBuffer.2 := by
  have hstore := connect_sent_stores DeviceObject Callback devExt First hfirst hsent
  have hkeep := stream_run_UpperConnectData DeviceObject Callback events
    (EvtIoInternalDeviceControl DeviceObject Callback devExt First).devExt
    (by rw [hstore]; exact hservice)
  rw [hstore] at hkeep ⊢
  simp only at hkeep
  have hconn : (stream_run DeviceObject Callback
      { counter := 0, carry := zero_carry, UpperConnectData := First.RetrieveInputBuffer.2 }
      events).UpperConnectData.ClassService ≠ NULL := by
    rw [hkeep]; exact hservice
  refine ⟨?_, EvtIoInternalDeviceControl_connected DeviceObject Callback _ Second hconn, hkeep⟩
  unfold EvtIoInternalDeviceControl
  simp [hsecond, hconn, STATUS_SHARING_VIOLATION, NT_SUCCESS]

/-- Witness of `connect_exclusive`: a connect with class service 128, three
events, a second connect; the second is refused and the context keeps the
carry `(-1/2, 1/2)` left by the events and the first target. -/
theorem connect_exclusive_witness :
    (EvtIoInternalDeviceControl 500 600 disconnected_devExt
        (connect_request ⟨64, 128⟩)).disposition = Disposition.sent
      ∧ stream_run 500 600
          (EvtIoInternalDeviceControl 500 600 disconnected_devExt
            (connect_request ⟨64, 128⟩)).devExt sample_events
          = { counter := 5000, carry := ⟨F64.fin (-1 / 2), F64.fin (1 / 2)⟩,
              UpperConnectData := ⟨64, 128⟩ }
      ∧ (EvtIoInternalDeviceControl 500 600
          (stream_run 500 600
            (EvtIoInternalDeviceControl 500 600 disconnected_devExt
              (connect_request ⟨64, 128⟩)).devExt sample_events)
          (connect_request ⟨77, 99⟩)).disposition
          = Disposition.completed STATUS_SHARING_VIOLATION
      ∧ (EvtIoInternalDeviceControl 500 600
          (stream_run 500 600
            (EvtIoInternalDeviceControl 500 600 disconnected_devExt
              (connect_request ⟨64, 128⟩)).devExt sample_events)
          (connect_request ⟨77, 99⟩)).devExt
          = stream_run 500 600
              (EvtIoInternalDeviceControl 500 600 disconnected_devExt
                (connect_request ⟨64, 128⟩)).devExt sample_events :=
  ⟨by decide!, by decide!,
   (connect_exclusive 500 600 disconnected_devExt (connect_request ⟨64, 128⟩)
      (connect_request ⟨77, 99⟩) sample_events rfl (by decide!) (by decide) rfl).1,
   (connect_exclusive 500 600 disconnected_devExt (connect_request ⟨64, 128⟩)
      (connect_request ⟨77, 99⟩) sample_events rfl (by decide!) (by decide) rfl).2.1⟩

/-- C8: the code misses the claim. The guard under the comment `Only allow
one connection` tests the stored class service pointer: a first connect whose
connect data has a null class service pointer is accepted and recorded, and a
second connect right after it is accepted too, not completed with
`STATUS_SHARING_VIOLATION`, and replaces the recorded forwarding target. -/
theorem second_connect_after_null_service :
    (EvtIoInternalDeviceControl 500 600 disconnected_devExt
        (connect_request ⟨64, NULL⟩)).disposition = Disposition.sent
      ∧ (EvtIoInternalDeviceControl 500 600 disconnected_devExt
          (connect_request ⟨64, NULL⟩)).devExt
          = { counter := 0, carry := zero_carry, UpperConnectData := ⟨64, NULL⟩ }
      ∧ (EvtIoInternalDeviceControl 500 600
          (EvtIoInternalDeviceControl 500 600 disconnected_devExt
            (connect_request ⟨64, NULL⟩)).devExt
          (connect_request ⟨77, 99⟩)).disposition = Disposition.sent
      ∧ (EvtIoInternalDeviceControl 500 600
          (EvtIoInternalDeviceControl 500 600 disconnected_devExt
            (connect_request ⟨64, NULL⟩)).devExt
          (connect_request ⟨77, 99⟩)).disposition
          ≠ Disposition.completed STATUS_SHARING_VIOLATION
      ∧ (EvtIoInternalDeviceControl 500 600
          (EvtIoInternalDeviceControl 500 600 disconnected_devExt
            (connect_request ⟨64, NULL⟩)).devExt
          (connect_request ⟨77, 99⟩)).devExt
          = { counter := 0, carry := zero_carry, UpperConnectData := ⟨77, 99⟩ } := by
  refine ⟨by decide!, by decide!, by decide!, by decide!, by decide!⟩

/-! ## Absolute-motion pass-through -/

theorem loop_body_flags {α L : Type} (g : Global α L) (now : counter_t) (e : Bool)
    (carry : vec2d) (counter : counter_t) (it : MOUSE_INPUT_DATA) (flags : Nat) :
    loop_body g now e carry counter { it with Flags := flags }
      = ({ (loop_body g now e carry counter it).1 with Flags := flags },
         (loop_body g now e carry counter it).2) := rfl

/-- C11. Absolute-motion pass-through: on a batch whose first packet has the
flag `MOUSE_MOVE_ABSOLUTE` set, `RawaccelCallback` leaves every packet, the
carry and the counter as they were and calls the class service with the batch
as received, whatever the flags of the later packets; on a batch whose first
packet is relative, every packet is rewritten by the loop body, whatever its
own flags: the loop body does not look at them. -/
theorem absolute_pass_through {α L : Type} (g : Global α L) (now : counter_t)
    (devExt : DEVICE_EXTENSION) (InputDataStart InputDataConsumed : Nat)
    (first_absolute first_relative : MOUSE_INPUT_DATA) (rest : List MOUSE_INPUT_DATA)
    (habs : first_absolute.Flags &&& MOUSE_MOVE_ABSOLUTE ≠ 0)
    (hrel : first_relative.Flags &&& MOUSE_MOVE_ABSOLUTE = 0) :
    RawaccelCallback g now devExt InputDataStart (first_absolute :: rest) InputDataConsumed
        = some
          { devExt := devExt
            packets := first_absolute :: rest
            call :=
              { ClassService := devExt.UpperConnectData.ClassService
                ClassDeviceObject := devExt.UpperConnectData.ClassDeviceObject
                InputDataStart := InputDataStart
                InputDataEnd := InputDataStart + (first_absolute :: rest).length
                InputDataConsumed := InputDataConsumed } }
      ∧ (∃ r,
          RawaccelCallback g now devExt InputDataStart (first_relative :: rest)
              InputDataConsumed = some r
            ∧ ∀ i : Nat,
              r.packets[i]?
                = ((first_relative :: rest)[i]?).map (fun it =>
                    (loop_body g now (decide ((first_relative :: rest).length = 1))
                      (packet_loop g now (decide ((first_relative :: rest).length = 1))
                        devExt.carry devExt.counter ((first_relative :: rest).take i)).2.1
                      (packet_loop g now (decide ((first_relative :: rest).length = 1))
                        devExt.carry devExt.counter ((first_relative :: rest).take i)).2.2
                      it).1))
      ∧ ∀ (e : Bool) (carry : vec2d) (counter : counter_t) (it : MOUSE_INPUT_DATA)
          (flags : Nat),
          loop_body g now e carry counter { it with Flags := flags }
            = ({ (loop_body g now e carry counter it).1 with Flags := flags },
               (loop_body g now e carry counter it).2) := by
  refine ⟨?_, ⟨_, rfl, ?_⟩, fun e carry counter it flags =>
    loop_body_flags g now e carry counter it flags⟩
  · simp only [RawaccelCallback, habs, if_false]
  · intro i
    simp only [hrel, if_true, List.length_cons, add_tsub_cancel_left]
    exact packet_loop_in_order g now _ (first_relative :: rest) devExt.carry devExt.counter i

/-- Witness of `absolute_pass_through`: under a sensitivity of 2, a batch that
starts with an absolute packet is left as it is, together with the carry and
the counter; a batch that starts with a relative packet has its second packet,
an absolute one, rewritten from `(100, 200)` to `(200, 399)`. -/
theorem absolute_pass_through_witness :
    RawaccelCallback (sample_global (scaling_modifier 2)) 5000 busy_devExt 16
        [absolute_packet ⟨100, by decide⟩ ⟨200, by decide⟩,
          relative_packet ⟨3, by decide⟩ ⟨-1, by decide⟩] 8
        = some
          { devExt := busy_devExt
            packets := [absolute_packet ⟨100, by decide⟩ ⟨200, by decide⟩,
              relative_packet ⟨3, by decide⟩ ⟨-1, by decide⟩]
            call :=
              { ClassService := 128, ClassDeviceObject := 64, InputDataStart := 16
                InputDataEnd := 18, InputDataConsumed := 8 } }
      ∧ (RawaccelCallback (sample_global (scaling_modifier 2)) 5000 busy_devExt 16
          [relative_packet ⟨3, by decide⟩ ⟨-1, by decide⟩,
            absolute_packet ⟨100, by decide⟩ ⟨200, by decide⟩] 8).map (fun r => r.packets)
          = some [relative_packet ⟨6, by decide⟩ ⟨-2, by decide⟩,
              absolute_packet ⟨200, by decide⟩ ⟨399, by decide⟩] :=
  ⟨(absolute_pass_through (sample_global (scaling_modifier 2)) 5000 busy_devExt 16 8
      (absolute_packet ⟨100, by decide⟩ ⟨200, by decide⟩)
      (relative_packet ⟨3, by decide⟩ ⟨-1, by decide⟩)
      [relative_packet ⟨3, by decide⟩ ⟨-1, by decide⟩] (by decide) (by decide)).1,
   by decide!⟩

end Rawaccel
